import Mathlib

/-!
# The resource registry of `src/resource.cpp`

A shallow embedding of the fixed-capacity resource pile: the global array
`resource_pile` together with `free_index` is an explicit state, every function of
the source takes the state and returns the new one, output pointers are modelled as
optional cells (`none` is a `NULL` pointer, `some v` a cell currently holding `v`),
and the bounded `for` loops are recursions whose fuel is the loop bound.

Buffers are values: `content` is the byte sequence the handle points at (`none` for a
`NULL` pointer), so copying a handle copies the view of the same bytes.
`free_resource` touches neither `resource_pile` nor `free_index` and therefore does
not appear in the state transformers below.
-/

namespace resource

/-- The identifier type `hash::HashID`, a 64-bit unsigned value. The registry only
compares identifiers with each other and with `0`, so no arithmetic is involved. -/
abbrev HashID := Nat

/-- Modelled from the spec: the constant `MAX_RESOURCES` of the header `resource.hpp`,
which is not among the sources; the spec and the comment at the declaration of
`resource_pile` both give 4096. -/
def MAX_RESOURCES : Nat := 4096

/-- Modelled from the spec: the enumeration `ErrorType` of the header `resource.hpp`,
with the four enumerators the source file assigns. -/
inductive ErrorType where
  | NO_ERROR
  | FILE_NOT_FOUND
  | MATCHING_ID_LOADED
  | RESOURCE_LIMIT_REACHED
deriving DecidableEq, Repr

/-- Modelled from the spec: the struct `ResourceHandle` of the header `resource.hpp`,
with the four members the source file reads and writes. -/
structure ResourceHandle where
  id : HashID
  name_str : String
  content : Option (List Nat)
  length : Nat
deriving DecidableEq, Repr

/-- The value-initialised handle, `ResourceHandle()` and `{0}` in the source: the
identifier is the empty sentinel and there is no buffer. -/
def blank : ResourceHandle :=
  { id := 0, name_str := "", content := none, length := 0 }

/-- The array assignment `pile[i] = v`. -/
def store (pile : Nat → ResourceHandle) (i : Nat) (v : ResourceHandle) :
    Nat → ResourceHandle :=
  fun j => if j = i then v else pile j

/-- The two globals of the translation unit: the array `resource_pile` (only the
indices below `MAX_RESOURCES` are slots of the array) and `free_index`. -/
structure Registry where
  resource_pile : Nat → ResourceHandle
  free_index : Nat

/-- The state at program start: static storage, every slot value-initialised. -/
def empty_pile : Registry :=
  { resource_pile := fun _ => blank, free_index := 0 }

/-- Embedding of `push_resource`: the returned pair is the boolean result and the
state after the call. -/
def push_resource (s : Registry) (resource : ResourceHandle) : Bool × Registry :=
  if 0 ≤ s.free_index ∧ s.free_index < MAX_RESOURCES then
    (true, { resource_pile := store s.resource_pile s.free_index resource,
             free_index := s.free_index + 1 })
  else
    (false, s)

/-- Embedding of `pop_resource`: the returned pair is the handle returned by value and
the state after the call. -/
def pop_resource (s : Registry) : ResourceHandle × Registry :=
  if 0 < s.free_index ∧ s.free_index < MAX_RESOURCES then
    let fi := s.free_index - 1
    let out_res := s.resource_pile fi
    (out_res, { resource_pile := store s.resource_pile fi { out_res with id := 0 },
                free_index := fi })
  else
    (blank, s)

/-- The `for` loop of `get_resource`, started at index `i` with `fuel` iterations
left: `some i` when the loop returns at index `i`, `none` when it breaks on a zero
identifier or runs to its bound. -/
def get_resource_scan (pile : Nat → ResourceHandle) (hash : HashID) :
    Nat → Nat → Option Nat
  | 0, _ => none
  | fuel + 1, i =>
    if i < MAX_RESOURCES then
      if (pile i).id = 0 then none
      else if (pile i).id = hash then some i
      else get_resource_scan pile hash fuel (i + 1)
    else none

/-- What a call of `get_resource` leaves behind: the boolean result, the two output
cells and the state. -/
structure GetResult where
  found : Bool
  out : Option ResourceHandle
  index : Option Nat
  state : Registry

/-- Embedding of `get_resource`. The function `hash::compute_hash` is defined outside
this translation unit and enters as the parameter `compute_hash`. -/
def get_resource (compute_hash : String → HashID) (s : Registry) (id : String)
    (out : Option ResourceHandle) (index : Option Nat) : GetResult :=
  match get_resource_scan s.resource_pile (compute_hash id) MAX_RESOURCES 0 with
  | some i =>
    { found := true
      out := out.map (fun _ => s.resource_pile i)
      index := index.map (fun _ => i)
      state := s }
  | none => { found := false, out := out, index := index, state := s }

/-- What a call of `register_resource` leaves behind: the boolean result, the handle
passed by reference, the error cell and the state. -/
structure RegisterResult where
  ok : Bool
  resource : ResourceHandle
  error : Option ErrorType
  state : Registry

/-- Embedding of `register_resource`. -/
def register_resource (compute_hash : String → HashID) (s : Registry) (id : String)
    (resource : ResourceHandle) (error : Option ErrorType) : RegisterResult :=
  let g := get_resource compute_hash s id none none
  if g.found = true then
    { ok := false, resource := resource
      error := error.map (fun _ => ErrorType.MATCHING_ID_LOADED), state := g.state }
  else
    let resource1 := { resource with id := compute_hash id, name_str := id }
    let p := push_resource g.state resource1
    if p.1 = false then
      { ok := false, resource := resource1
        error := error.map (fun _ => ErrorType.RESOURCE_LIMIT_REACHED), state := p.2 }
    else
      { ok := true, resource := resource1, error := error, state := p.2 }

/-- The `for` loop of `destroy_resource(uint64_t)`, at loop variable `i` with `fuel`
iterations left. -/
def destroy_resource_shift :
    Nat → Nat → (Nat → ResourceHandle) → (Nat → ResourceHandle)
  | 0, _, pile => pile
  | fuel + 1, i, pile =>
    if i ≤ MAX_RESOURCES then
      if (pile (i - 1)).id = 0 then pile
      else if i ≥ MAX_RESOURCES then
        destroy_resource_shift fuel (i + 1) (store pile (i - 1) blank)
      else
        destroy_resource_shift fuel (i + 1) (store pile (i - 1) (pile i))
    else pile

/-- Embedding of the overload `destroy_resource(const uint64_t index)`. The loop
variable runs from `index + 1` to `MAX_RESOURCES` inclusive, which is at most
`MAX_RESOURCES - index` iterations. The index is one of the array, below
`MAX_RESOURCES`. -/
def destroy_resource_index (s : Registry) (index : Nat) : Registry :=
  { resource_pile :=
      destroy_resource_shift (MAX_RESOURCES - index) (index + 1) s.resource_pile
    free_index := if 0 < s.free_index then s.free_index - 1 else s.free_index }

/-- Embedding of the overload `destroy_resource(std::string id)`. The local `index`
is an uninitialised cell that is read only after `get_resource` has written it. -/
def destroy_resource (compute_hash : String → HashID) (s : Registry) (id : String) :
    Bool × Registry :=
  let g := get_resource compute_hash s id none (some 0)
  if g.found = true then
    (true, destroy_resource_index g.state (g.index.getD 0))
  else
    (false, g.state)

/-- Embedding of `quit`: the `while` loop with `fuel` iterations allowed; `none` when
the loop is still running after `fuel` iterations. -/
def quit : Nat → Registry → Option Registry
  | 0, _ => none
  | fuel + 1, s =>
    if 0 < s.free_index then quit fuel (pop_resource s).2 else some s

/-- A client call of the claims about call sequences: a registration or a
destruction by name. -/
inductive Call where
  | register (id : String) (resource : ResourceHandle)
  | destroy (id : String)

/-- The name a call is made under. -/
def Call.id : Call → String
  | Call.register id _ => id
  | Call.destroy id => id

/-- The state after one client call. -/
def step (compute_hash : String → HashID) (s : Registry) : Call → Registry
  | Call.register id resource => (register_resource compute_hash s id resource none).state
  | Call.destroy id => (destroy_resource compute_hash s id).2

/-- The state after a sequence of client calls. -/
def run (compute_hash : String → HashID) (s : Registry) (calls : List Call) : Registry :=
  calls.foldl (step compute_hash) s

/-- The state after successive registrations, each made with a null error pointer. -/
def register_seq (compute_hash : String → HashID) :
    Registry → List (String × ResourceHandle) → Registry
  | s, [] => s
  | s, (id, resource) :: rest =>
    register_seq compute_hash (register_resource compute_hash s id resource none).state rest

/-- Whether every call of a run of successive registrations returned `true`. -/
def register_seq_ok (compute_hash : String → HashID) :
    Registry → List (String × ResourceHandle) → Bool
  | _, [] => true
  | s, (id, resource) :: rest =>
    (register_resource compute_hash s id resource none).ok &&
      register_seq_ok compute_hash
        (register_resource compute_hash s id resource none).state rest

/-- Dense packing: `free_index` is within the capacity, the slots below it carry
non-zero identifiers and the slots from it up to the capacity carry the sentinel. -/
def dense (s : Registry) : Prop :=
  s.free_index ≤ MAX_RESOURCES ∧
  (∀ i, i < s.free_index → (s.resource_pile i).id ≠ 0) ∧
  (∀ i, s.free_index ≤ i → i < MAX_RESOURCES → (s.resource_pile i).id = 0)

instance (s : Registry) : Decidable (dense s) := by
  unfold dense; infer_instance

/-- The active handles, slots `0 .. free_index - 1` in index order. -/
def active (s : Registry) : List ResourceHandle :=
  (List.range s.free_index).map s.resource_pile

/-- The name made of `n` letters `a`; under the length hash its identifier is `n`. -/
def letters (n : Nat) : String :=
  String.mk (List.replicate n 'a')

/-- A run of `MAX_RESOURCES` registrations under the names `a`, `aa`, `aaa`, ... -/
def capacity_regs : List (String × ResourceHandle) :=
  (List.range MAX_RESOURCES).map (fun n => (letters (n + 1), blank))

/-- The pile after the registrations of `capacity_regs` from program start, hashing a
name to its length. -/
def full_pile : Registry :=
  register_seq String.length empty_pile capacity_regs

/-- Embedding of `allocate_resource`. The bytes of the block `malloc` hands back are
not initialised; `junk` gives the byte found at each offset. The members the function
does not assign are those of the default-initialised handle, which the spec gives as
identifier 0 and empty name. -/
def allocate_resource (size : Nat) (junk : Nat → Nat) : ResourceHandle :=
  { blank with length := size, content := some ((List.range size).map junk) }

/-- The library call `std::memcpy(dst, src, n)` on a buffer value: the first `n` bytes
of the destination block are replaced by the first `n` bytes of the source, which
holds at least `n` bytes. The block keeps the size it was allocated with: a byte that
would land past its end is not a byte of the block, so the buffer holds the copied
bytes only as far as the allocation reaches. A null destination stays null. -/
def memcpy (dst : Option (List Nat)) (src : List Nat) (n : Nat) : Option (List Nat) :=
  dst.map (fun d => (src.take n ++ d.drop n).take d.length)

/-- What a call of `load_resource` or of `create_resource_from_data` leaves behind:
the boolean result, the output cell, the error cell and the state. -/
structure LoadResult where
  ok : Bool
  out : Option ResourceHandle
  error : Option ErrorType
  state : Registry

/-- Embedding of `load_resource`. The file system enters through `file`: `none` when
the stream does not open, `some bytes` with the content of the file when it does. The
stream positions `begin` and `end` are 0 and the byte length, and `in.read` copies
`new_res.length` bytes of the file into the buffer. -/
def load_resource (compute_hash : String → HashID) (s : Registry) (id : String)
    (file : Option (List Nat)) (junk : Nat → Nat) (out : Option ResourceHandle)
    (error : Option ErrorType) : LoadResult :=
  match file with
  | some bytes =>
    let new_res := allocate_resource (bytes.length - 0) junk
    let new_res := { new_res with content := memcpy new_res.content bytes new_res.length }
    let r := register_resource compute_hash s id new_res error
    if r.ok = false then
      { ok := false, out := out, error := r.error, state := r.state }
    else
      { ok := true
        out := out.map (fun _ => r.resource)
        error := r.error.map (fun _ => ErrorType.NO_ERROR)
        state := r.state }
  | none =>
    { ok := false, out := out
      error := error.map (fun _ => ErrorType.FILE_NOT_FOUND), state := s }

/-- Embedding of `create_resource_from_data`; `object` is the block the pointer
designates. The source never assigns through `out` and never writes `NO_ERROR`. -/
def create_resource_from_data (compute_hash : String → HashID) (s : Registry)
    (id : String) (object : List Nat) (size : Nat) (junk : Nat → Nat)
    (out : Option ResourceHandle) (error : Option ErrorType) : LoadResult :=
  let new_res := allocate_resource size junk
  let new_res := { new_res with content := memcpy new_res.content object size }
  let r := register_resource compute_hash s id new_res error
  if r.ok = false then
    { ok := false, out := out, error := r.error, state := r.state }
  else
    { ok := true, out := out, error := r.error, state := r.state }

/-- Unique identifiers: no two slots below `free_index` carry the same identifier. -/
def unique_ids (s : Registry) : Prop :=
  ∀ i j, i < s.free_index → j < s.free_index →
    (s.resource_pile i).id = (s.resource_pile j).id → i = j

/-! ## Slots and the two stack operations -/

theorem store_same (pile : Nat → ResourceHandle) (i : Nat) (v : ResourceHandle) :
    store pile i v i = v := by
  simp [store]

theorem store_other (pile : Nat → ResourceHandle) (i j : Nat) (v : ResourceHandle)
    (h : j ≠ i) : store pile i v j = pile j := by
  simp [store, h]

theorem push_resource_lt (s : Registry) (r : ResourceHandle)
    (h : s.free_index < MAX_RESOURCES) :
    push_resource s r =
      (true, { resource_pile := store s.resource_pile s.free_index r,
               free_index := s.free_index + 1 }) := by
  simp [push_resource, h]

theorem push_resource_ge (s : Registry) (r : ResourceHandle)
    (h : MAX_RESOURCES ≤ s.free_index) : push_resource s r = (false, s) := by
  simp [push_resource, Nat.not_lt.mpr h]

/-! ## The lookup loop -/

theorem scan_some_iff (pile : Nat → ResourceHandle) (hash : HashID) :
    ∀ fuel i k, i + fuel = MAX_RESOURCES →
      (get_resource_scan pile hash fuel i = some k ↔
        i ≤ k ∧ k < MAX_RESOURCES ∧ (pile k).id = hash ∧
          (∀ j, i ≤ j → j ≤ k → (pile j).id ≠ 0) ∧
          (∀ j, i ≤ j → j < k → (pile j).id ≠ hash)) := by
  intro fuel
  induction fuel with
  | zero =>
    intro i k hik
    simp only [get_resource_scan]
    constructor
    · intro h; cases h
    · rintro ⟨h1, h2, _⟩; omega
  | succ fuel ih =>
    intro i k hik
    have hi : i < MAX_RESOURCES := by omega
    simp only [get_resource_scan, hi, if_true]
    by_cases h0 : (pile i).id = 0
    · simp only [h0, if_true]
      constructor
      · intro h; cases h
      · rintro ⟨h1, _, _, h4, _⟩
        exact absurd h0 (h4 i (le_refl i) h1)
    · simp only [h0, if_false]
      by_cases hh : (pile i).id = hash
      · simp only [hh, if_true]
        constructor
        · intro h
          have hk : i = k := by injection h
          subst hk
          refine ⟨le_refl _, hi, hh, ?_, ?_⟩
          · intro j h1 h2
            have : j = i := by omega
            subst this; exact h0
          · intro j h1 h2; omega
        · rintro ⟨h1, _, _, _, h5⟩
          rcases Nat.lt_or_ge i k with hlt | hge
          · exact absurd hh (h5 i (le_refl i) hlt)
          · have : i = k := by omega
            rw [this]
      · simp only [hh, if_false]
        rw [ih (i + 1) k (by omega)]
        constructor
        · rintro ⟨h1, h2, h3, h4, h5⟩
          refine ⟨by omega, h2, h3, ?_, ?_⟩
          · intro j hj1 hj2
            rcases Nat.eq_or_lt_of_le hj1 with he | hl
            · rw [← he]; exact h0
            · exact h4 j hl hj2
          · intro j hj1 hj2
            rcases Nat.eq_or_lt_of_le hj1 with he | hl
            · rw [← he]; exact hh
            · exact h5 j hl hj2
        · rintro ⟨h1, h2, h3, h4, h5⟩
          have hne : i ≠ k := by
            intro he; rw [he] at hh; exact hh h3
          refine ⟨by omega, h2, h3, ?_, ?_⟩
          · intro j hj1 hj2; exact h4 j (by omega) hj2
          · intro j hj1 hj2; exact h5 j (by omega) hj2

/-- The loop of `get_resource`, run from index 0 over the whole array, returns `k`
exactly when `k` is the first slot carrying the hash and no slot up to `k` is empty. -/
theorem scan_full_some_iff (pile : Nat → ResourceHandle) (hash : HashID) (k : Nat) :
    get_resource_scan pile hash MAX_RESOURCES 0 = some k ↔
      k < MAX_RESOURCES ∧ (pile k).id = hash ∧
        (∀ j, j ≤ k → (pile j).id ≠ 0) ∧ (∀ j, j < k → (pile j).id ≠ hash) := by
  rw [scan_some_iff pile hash MAX_RESOURCES 0 k (by omega)]
  constructor
  · rintro ⟨_, h2, h3, h4, h5⟩
    exact ⟨h2, h3, fun j hj => h4 j (Nat.zero_le j) hj, fun j hj => h5 j (Nat.zero_le j) hj⟩
  · rintro ⟨h2, h3, h4, h5⟩
    exact ⟨Nat.zero_le k, h2, h3, fun j _ hj => h4 j hj, fun j _ hj => h5 j hj⟩

/-- The loop finds nothing exactly when no slot reachable without crossing an empty
slot carries the hash. -/
theorem scan_full_none_iff (pile : Nat → ResourceHandle) (hash : HashID) :
    get_resource_scan pile hash MAX_RESOURCES 0 = none ↔
      ∀ k, k < MAX_RESOURCES → (∀ j, j ≤ k → (pile j).id ≠ 0) → (pile k).id ≠ hash := by
  constructor
  · intro hnone k hk hnz hid
    have hex : ∃ n, n < MAX_RESOURCES ∧ (pile n).id = hash ∧ ∀ j, j ≤ n → (pile j).id ≠ 0 :=
      ⟨k, hk, hid, hnz⟩
    classical
    obtain ⟨h1, h2, h3⟩ := Nat.find_spec hex
    have hmin : ∀ j, j < Nat.find hex → (pile j).id ≠ hash := by
      intro j hj hjid
      exact Nat.find_min hex hj ⟨by omega, hjid, fun j2 hj2 => h3 j2 (by omega)⟩
    have := (scan_full_some_iff pile hash (Nat.find hex)).mpr ⟨h1, h2, h3, hmin⟩
    rw [hnone] at this
    cases this
  · intro h
    cases hscan : get_resource_scan pile hash MAX_RESOURCES 0 with
    | none => rfl
    | some k =>
      obtain ⟨h1, h2, h3, _⟩ := (scan_full_some_iff pile hash k).mp hscan
      exact absurd h2 (h k h1 h3)

/-! ## `get_resource` -/

theorem get_resource_of_some (ch : String → HashID) (s : Registry) (id : String)
    (out : Option ResourceHandle) (index : Option Nat) (k : Nat)
    (h : get_resource_scan s.resource_pile (ch id) MAX_RESOURCES 0 = some k) :
    get_resource ch s id out index =
      { found := true, out := out.map (fun _ => s.resource_pile k),
        index := index.map (fun _ => k), state := s } := by
  simp [get_resource, h]

theorem get_resource_of_none (ch : String → HashID) (s : Registry) (id : String)
    (out : Option ResourceHandle) (index : Option Nat)
    (h : get_resource_scan s.resource_pile (ch id) MAX_RESOURCES 0 = none) :
    get_resource ch s id out index =
      { found := false, out := out, index := index, state := s } := by
  simp [get_resource, h]

theorem get_resource_state (ch : String → HashID) (s : Registry) (id : String)
    (out : Option ResourceHandle) (index : Option Nat) :
    (get_resource ch s id out index).state = s := by
  unfold get_resource
  split <;> rfl

theorem get_resource_found_iff (ch : String → HashID) (s : Registry) (id : String)
    (out : Option ResourceHandle) (index : Option Nat) :
    (get_resource ch s id out index).found = true ↔
      ∃ k, get_resource_scan s.resource_pile (ch id) MAX_RESOURCES 0 = some k := by
  cases h : get_resource_scan s.resource_pile (ch id) MAX_RESOURCES 0 with
  | none => simp [get_resource_of_none ch s id out index h]
  | some k => simp [get_resource_of_some ch s id out index k h]

/-- On a densely packed pile a non-zero hash is found exactly when an active slot
carries it. -/
theorem dense_found_iff (ch : String → HashID) (s : Registry) (id : String)
    (out : Option ResourceHandle) (index : Option Nat) (hd : dense s) :
    (get_resource ch s id out index).found = true ↔
      ∃ k, k < s.free_index ∧ (s.resource_pile k).id = ch id := by
  obtain ⟨hle, hnz, hz⟩ := hd
  rw [get_resource_found_iff]
  constructor
  · rintro ⟨k, hk⟩
    obtain ⟨h1, h2, h3, _⟩ := (scan_full_some_iff _ _ k).mp hk
    refine ⟨k, ?_, h2⟩
    by_contra hge
    exact h3 k (le_refl k) (hz k (by omega) h1)
  · rintro ⟨k, hk, hid⟩
    cases hscan : get_resource_scan s.resource_pile (ch id) MAX_RESOURCES 0 with
    | some n => exact ⟨n, rfl⟩
    | none =>
      exact absurd hid ((scan_full_none_iff _ _).mp hscan k (by omega)
        (fun j hj => hnz j (by omega)))

/-! ## `register_resource` -/

theorem register_resource_found (ch : String → HashID) (s : Registry) (id : String)
    (r : ResourceHandle) (e : Option ErrorType)
    (h : (get_resource ch s id none none).found = true) :
    register_resource ch s id r e =
      { ok := false, resource := r,
        error := e.map (fun _ => ErrorType.MATCHING_ID_LOADED), state := s } := by
  simp [register_resource, h, get_resource_state]

theorem register_resource_full (ch : String → HashID) (s : Registry) (id : String)
    (r : ResourceHandle) (e : Option ErrorType)
    (h : (get_resource ch s id none none).found = false)
    (hfull : MAX_RESOURCES ≤ s.free_index) :
    register_resource ch s id r e =
      { ok := false, resource := { r with id := ch id, name_str := id },
        error := e.map (fun _ => ErrorType.RESOURCE_LIMIT_REACHED), state := s } := by
  simp [register_resource, h, get_resource_state, push_resource_ge _ _ hfull]

theorem register_resource_pushed (ch : String → HashID) (s : Registry) (id : String)
    (r : ResourceHandle) (e : Option ErrorType)
    (h : (get_resource ch s id none none).found = false)
    (hlt : s.free_index < MAX_RESOURCES) :
    register_resource ch s id r e =
      { ok := true, resource := { r with id := ch id, name_str := id }, error := e,
        state :=
          { resource_pile :=
              store s.resource_pile s.free_index { r with id := ch id, name_str := id },
            free_index := s.free_index + 1 } } := by
  simp [register_resource, h, get_resource_state, push_resource_lt _ _ hlt]

/-- A registration that returns `true` found no match and had room to push. -/
theorem register_resource_ok_iff (ch : String → HashID) (s : Registry) (id : String)
    (r : ResourceHandle) (e : Option ErrorType) :
    (register_resource ch s id r e).ok = true ↔
      (get_resource ch s id none none).found = false ∧ s.free_index < MAX_RESOURCES := by
  cases hf : (get_resource ch s id none none).found with
  | true => simp [register_resource_found ch s id r e hf]
  | false =>
    rcases Nat.lt_or_ge s.free_index MAX_RESOURCES with hlt | hge
    · simp [register_resource_pushed ch s id r e hf hlt, hlt]
    · simp [register_resource_full ch s id r e hf hge, Nat.not_lt.mpr hge]

theorem register_resource_state_of_not_ok (ch : String → HashID) (s : Registry)
    (id : String) (r : ResourceHandle) (e : Option ErrorType)
    (h : (register_resource ch s id r e).ok = false) :
    (register_resource ch s id r e).state = s := by
  cases hf : (get_resource ch s id none none).found with
  | true => simp [register_resource_found ch s id r e hf]
  | false =>
    rcases Nat.lt_or_ge s.free_index MAX_RESOURCES with hlt | hge
    · rw [register_resource_pushed ch s id r e hf hlt] at h
      cases h
    · simp [register_resource_full ch s id r e hf hge]

theorem register_resource_state_of_ok (ch : String → HashID) (s : Registry)
    (id : String) (r : ResourceHandle) (e : Option ErrorType)
    (h : (register_resource ch s id r e).ok = true) :
    (register_resource ch s id r e).state =
      { resource_pile :=
          store s.resource_pile s.free_index { r with id := ch id, name_str := id },
        free_index := s.free_index + 1 } := by
  obtain ⟨hf, hlt⟩ := (register_resource_ok_iff ch s id r e).mp h
  rw [register_resource_pushed ch s id r e hf hlt]

/-- The state left by `register_resource` does not depend on the error pointer. -/
theorem register_resource_state_error (ch : String → HashID) (s : Registry)
    (id : String) (r : ResourceHandle) (e e2 : Option ErrorType) :
    (register_resource ch s id r e).state = (register_resource ch s id r e2).state ∧
    (register_resource ch s id r e).ok = (register_resource ch s id r e2).ok := by
  cases hf : (get_resource ch s id none none).found with
  | true => simp [register_resource_found ch s id r _ hf]
  | false =>
    rcases Nat.lt_or_ge s.free_index MAX_RESOURCES with hlt | hge
    · simp [register_resource_pushed ch s id r _ hf hlt]
    · simp [register_resource_full ch s id r _ hf hge]

/-- Registration under a name with a non-zero hash keeps the pile densely packed. -/
theorem dense_register (ch : String → HashID) (s : Registry) (id : String)
    (r : ResourceHandle) (e : Option ErrorType) (hd : dense s) (hne : ch id ≠ 0) :
    dense (register_resource ch s id r e).state := by
  cases hok : (register_resource ch s id r e).ok with
  | false => rw [register_resource_state_of_not_ok ch s id r e hok]; exact hd
  | true =>
    obtain ⟨_, hlt⟩ := (register_resource_ok_iff ch s id r e).mp hok
    rw [register_resource_state_of_ok ch s id r e hok]
    obtain ⟨hle, hnz, hz⟩ := hd
    refine ⟨by simpa using hlt, ?_, ?_⟩
    · intro i hi
      simp only at hi
      show (store s.resource_pile s.free_index _ i).id ≠ 0
      by_cases hi2 : i = s.free_index
      · subst hi2; simp [store, hne]
      · rw [store_other _ _ _ _ hi2]; exact hnz i (by omega)
    · intro i hi hi3
      simp only at hi
      show (store s.resource_pile s.free_index _ i).id = 0
      rw [store_other _ _ _ _ (by omega)]
      exact hz i (by omega) hi3

/-! ## `destroy_resource` -/

/-- The compaction loop in closed form. From loop variable `i` on a pile whose slots
`i - 1 .. c - 1` are occupied and whose slot `c` (if any) is empty, every slot from
`i - 1` to `c - 1` receives its right neighbour, the last slot of the array receives
the blank handle, and nothing else changes. -/
theorem destroy_resource_shift_eq (c : Nat) (hc : c ≤ MAX_RESOURCES) :
    ∀ fuel i (pile : Nat → ResourceHandle), i + fuel = MAX_RESOURCES + 1 → 1 ≤ i →
      i ≤ c + 1 →
      (∀ j, i - 1 ≤ j → j < c → (pile j).id ≠ 0) →
      (c < MAX_RESOURCES → (pile c).id = 0) →
      ∀ j, destroy_resource_shift fuel i pile j =
        if i - 1 ≤ j ∧ j < c then
          (if j + 1 < MAX_RESOURCES then pile (j + 1) else blank)
        else pile j := by
  intro fuel
  induction fuel with
  | zero =>
    intro i pile hf h1 hic _ _ j
    have hn : ¬ (i - 1 ≤ j ∧ j < c) := by omega
    rw [if_neg hn]
    rfl
  | succ fuel ih =>
    intro i pile hf h1 hic hnz hz j
    have hi : i ≤ MAX_RESOURCES := by omega
    simp only [destroy_resource_shift, hi, if_true]
    by_cases h0 : (pile (i - 1)).id = 0
    · have hic2 : ¬ (i - 1 < c) := fun hlt => hnz (i - 1) (le_refl _) hlt h0
      have hn : ¬ (i - 1 ≤ j ∧ j < c) := by omega
      rw [if_pos h0, if_neg hn]
    · have hic2 : i ≤ c := by
        by_contra hgt
        have hci : c = i - 1 := by omega
        have hcm : c < MAX_RESOURCES := by omega
        exact h0 (hci ▸ hz hcm)
      rw [if_neg h0]
      by_cases hm : i ≥ MAX_RESOURCES
      · rw [if_pos hm]
        rw [ih (i + 1) _ (by omega) (by omega) (by omega) (by intro j2 _ _; omega)
          (by intro; omega)]
        have hn : ¬ (i + 1 - 1 ≤ j ∧ j < c) := by omega
        rw [if_neg hn]
        by_cases hj : j = i - 1
        · have hy : i - 1 ≤ j ∧ j < c := by omega
          have hx : ¬ (j + 1 < MAX_RESOURCES) := by omega
          rw [if_pos hy, if_neg hx, hj, store_same]
        · have hy : ¬ (i - 1 ≤ j ∧ j < c) := by omega
          rw [if_neg hy, store_other _ _ _ _ hj]
      · rw [if_neg hm]
        have hnz2 : ∀ j2, i + 1 - 1 ≤ j2 → j2 < c →
            (store pile (i - 1) (pile i) j2).id ≠ 0 := by
          intro j2 hj1 hj2
          rw [store_other _ _ _ _ (by omega)]
          exact hnz j2 (by omega) hj2
        have hz2 : c < MAX_RESOURCES → (store pile (i - 1) (pile i) c).id = 0 := by
          intro hcm
          rw [store_other _ _ _ _ (by omega)]
          exact hz hcm
        rw [ih (i + 1) _ (by omega) (by omega) (by omega) hnz2 hz2]
        by_cases hj : j = i - 1
        · have hn : ¬ (i + 1 - 1 ≤ j ∧ j < c) := by omega
          have hy : i - 1 ≤ j ∧ j < c := by omega
          have hx : j + 1 < MAX_RESOURCES := by omega
          have hji : j + 1 = i := by omega
          rw [if_neg hn, if_pos hy, if_pos hx, hji, hj, store_same]
        · by_cases hjc : i ≤ j ∧ j < c
          · have hn : i + 1 - 1 ≤ j ∧ j < c := by omega
            have hy : i - 1 ≤ j ∧ j < c := by omega
            rw [if_pos hn, if_pos hy]
            by_cases hx : j + 1 < MAX_RESOURCES
            · rw [if_pos hx, if_pos hx, store_other _ _ _ _ (by omega)]
            · rw [if_neg hx, if_neg hx]
          · have hn : ¬ (i + 1 - 1 ≤ j ∧ j < c) := by omega
            have hy : ¬ (i - 1 ≤ j ∧ j < c) := by omega
            rw [if_neg hn, if_neg hy, store_other _ _ _ _ hj]

/-- Removing an active entry of a densely packed pile, slot by slot. -/
theorem destroy_resource_index_slot (s : Registry) (k : Nat) (hd : dense s)
    (hk : k < s.free_index) (j : Nat) :
    (destroy_resource_index s k).resource_pile j =
      if k ≤ j ∧ j < s.free_index then
        (if j + 1 < MAX_RESOURCES then s.resource_pile (j + 1) else blank)
      else s.resource_pile j := by
  obtain ⟨hle, hnz, hz⟩ := hd
  have h := destroy_resource_shift_eq s.free_index hle (MAX_RESOURCES - k) (k + 1)
    s.resource_pile (by omega) (by omega) (by omega) (fun j2 _ hj2 => hnz j2 hj2)
    (fun hlt => hz _ (le_refl _) hlt) j
  simpa [destroy_resource_index] using h

theorem destroy_resource_index_free_index (s : Registry) (k : Nat)
    (hk : k < s.free_index) :
    (destroy_resource_index s k).free_index = s.free_index - 1 := by
  have : 0 < s.free_index := by omega
  simp [destroy_resource_index, this]

/-- Removing an active entry keeps the pile densely packed. -/
theorem dense_destroy_resource_index (s : Registry) (k : Nat) (hd : dense s)
    (hk : k < s.free_index) : dense (destroy_resource_index s k) := by
  have hslot := destroy_resource_index_slot s k hd hk
  have hfi := destroy_resource_index_free_index s k hk
  obtain ⟨hle, hnz, hz⟩ := hd
  refine ⟨by omega, ?_, ?_⟩
  · intro i hi
    rw [hfi] at hi
    rw [hslot i]
    by_cases hki : k ≤ i ∧ i < s.free_index
    · have hx : i + 1 < MAX_RESOURCES := by omega
      simp only [hki, hx, and_self, if_true]
      exact hnz (i + 1) (by omega)
    · simp only [hki, if_false]
      exact hnz i (by omega)
  · intro i hi hi2
    rw [hfi] at hi
    rw [hslot i]
    by_cases hki : k ≤ i ∧ i < s.free_index
    · simp only [hki, and_self, if_true]
      by_cases hx : i + 1 < MAX_RESOURCES
      · simp only [hx, if_true]
        exact hz (i + 1) (by omega) hx
      · simp [hx, blank]
    · simp only [hki, if_false]
      exact hz i (by omega) hi2

theorem destroy_resource_of_found (ch : String → HashID) (s : Registry) (id : String)
    (k : Nat)
    (h : get_resource_scan s.resource_pile (ch id) MAX_RESOURCES 0 = some k) :
    destroy_resource ch s id = (true, destroy_resource_index s k) := by
  simp [destroy_resource, get_resource_of_some ch s id none (some 0) k h]

theorem destroy_resource_of_not_found (ch : String → HashID) (s : Registry)
    (id : String)
    (h : get_resource_scan s.resource_pile (ch id) MAX_RESOURCES 0 = none) :
    destroy_resource ch s id = (false, s) := by
  simp [destroy_resource, get_resource_of_none ch s id none (some 0) h]

/-- Destruction by name keeps the pile densely packed. -/
theorem dense_destroy_resource (ch : String → HashID) (s : Registry) (id : String)
    (hd : dense s) : dense (destroy_resource ch s id).2 := by
  cases hscan : get_resource_scan s.resource_pile (ch id) MAX_RESOURCES 0 with
  | none => rw [destroy_resource_of_not_found ch s id hscan]; exact hd
  | some k =>
    rw [destroy_resource_of_found ch s id k hscan]
    obtain ⟨h1, h2, h3, _⟩ := (scan_full_some_iff _ _ k).mp hscan
    apply dense_destroy_resource_index s k hd
    by_contra hge
    exact h3 k (le_refl k) (hd.2.2 k (by omega) h1)

theorem active_getElem? (s : Registry) (j : Nat) :
    (active s)[j]? = if j < s.free_index then some (s.resource_pile j) else none := by
  unfold active
  rw [List.getElem?_map]
  by_cases h : j < s.free_index
  · rw [if_pos h, List.getElem?_range h]; rfl
  · rw [if_neg h, List.getElem?_eq_none (by simpa using h)]; rfl

theorem dense_step (ch : String → HashID) (s : Registry) (c : Call) (hd : dense s)
    (hne : ch c.id ≠ 0) : dense (step ch s c) := by
  cases c with
  | register id r => exact dense_register ch s id r none hd hne
  | destroy id => exact dense_destroy_resource ch s id hd

theorem dense_run (ch : String → HashID) (calls : List Call) :
    ∀ s, dense s → (∀ c, c ∈ calls → ch c.id ≠ 0) → dense (run ch s calls) := by
  induction calls with
  | nil => intro s hd _; exact hd
  | cons c rest ih =>
    intro s hd hne
    exact ih (step ch s c) (dense_step ch s c hd (hne c (List.mem_cons_self c rest)))
      (fun c2 hc2 => hne c2 (List.mem_cons_of_mem c hc2))

theorem dense_of_empty (s : Registry) (h0 : s.free_index = 0)
    (hz : ∀ i, i < MAX_RESOURCES → (s.resource_pile i).id = 0) : dense s :=
  ⟨by omega, fun i hi => by omega, fun i _ hi => hz i hi⟩

/-! ## The claims -/

/-- C1 (dense-packing invariant): starting from an empty pile (`free_index = 0`, every
slot with identifier 0), after every call of any finite sequence of registrations and
destructions by name whose names hash to non-zero identifiers, `free_index` is at most
`MAX_RESOURCES`, every slot below `free_index` has a non-zero identifier and every slot
from `free_index` up to `MAX_RESOURCES` has identifier 0. The state after the first
`n` calls is `run ch s0 (calls.take n)`. -/
theorem dense_after_every_call (ch : String → HashID) (s0 : Registry)
    (h0 : s0.free_index = 0)
    (hz : ∀ i, i < MAX_RESOURCES → (s0.resource_pile i).id = 0)
    (calls : List Call) (hne : ∀ c, c ∈ calls → ch c.id ≠ 0) (n : Nat) :
    (run ch s0 (calls.take n)).free_index ≤ MAX_RESOURCES ∧
    (∀ i, i < (run ch s0 (calls.take n)).free_index →
      ((run ch s0 (calls.take n)).resource_pile i).id ≠ 0) ∧
    (∀ i, (run ch s0 (calls.take n)).free_index ≤ i → i < MAX_RESOURCES →
      ((run ch s0 (calls.take n)).resource_pile i).id = 0) :=
  dense_run ch (calls.take n) s0 (dense_of_empty s0 h0 hz)
    (fun c hc => hne c (List.mem_of_mem_take hc))

/-- Witness of C1: two registrations, a destruction and a further registration from
the program-start state, hashing a name to its length; the state after the first
three calls holds the single entry "bb". -/
theorem dense_after_every_call_witness :
    (∀ c, c ∈ [Call.register "a" blank, Call.register "bb" blank, Call.destroy "a",
        Call.register "a" blank] → String.length c.id ≠ 0) ∧
    (run String.length empty_pile
      ([Call.register "a" blank, Call.register "bb" blank, Call.destroy "a",
        Call.register "a" blank].take 3)).free_index = 1 ∧
    dense (run String.length empty_pile
      ([Call.register "a" blank, Call.register "bb" blank, Call.destroy "a",
        Call.register "a" blank].take 3)) :=
  ⟨by decide, by decide,
    dense_after_every_call String.length empty_pile rfl (fun _ _ => rfl)
      [Call.register "a" blank, Call.register "bb" blank, Call.destroy "a",
        Call.register "a" blank] (by decide) 3⟩

/-- After a successful registration on a densely packed pile the lookup loop stops at
the slot that was pushed. -/
theorem scan_after_register (ch : String → HashID) (s : Registry) (id : String)
    (H : ResourceHandle) (e : Option ErrorType) (hd : dense s) (hne : ch id ≠ 0)
    (hok : (register_resource ch s id H e).ok = true) :
    get_resource_scan (register_resource ch s id H e).state.resource_pile (ch id)
      MAX_RESOURCES 0 = some s.free_index := by
  obtain ⟨hf, hlt⟩ := (register_resource_ok_iff ch s id H e).mp hok
  rw [register_resource_state_of_ok ch s id H e hok, scan_full_some_iff]
  have hnot : ¬ ∃ k, k < s.free_index ∧ (s.resource_pile k).id = ch id := by
    rw [← dense_found_iff ch s id none none hd, hf]; simp
  refine ⟨hlt, by simp [store], ?_, ?_⟩
  · intro j hj
    show (store s.resource_pile s.free_index _ j).id ≠ 0
    by_cases hjf : j = s.free_index
    · subst hjf; simp [store, hne]
    · rw [store_other _ _ _ _ hjf]; exact hd.2.1 j (by omega)
  · intro j hj hid
    change (store s.resource_pile s.free_index _ j).id = ch id at hid
    rw [store_other _ _ _ _ (by omega)] at hid
    exact hnot ⟨j, hj, hid⟩

/-- C2 (round trip): on a densely packed pile, for a name with a non-zero hash and any
handle `H`, if `register_resource` returns `true` then `get_resource` under the same
name, called on the resulting state, returns `true`, writes to a non-null index cell
the value `free_index` had before the registration, and writes to a non-null output
cell a handle with the length and content of `H`, the identifier `ch id` and the
registered name. -/
theorem register_then_get (ch : String → HashID) (s : Registry) (id : String)
    (H : ResourceHandle) (e : Option ErrorType) (out : Option ResourceHandle)
    (index : Option Nat) (hd : dense s) (hne : ch id ≠ 0)
    (hok : (register_resource ch s id H e).ok = true) :
    (get_resource ch (register_resource ch s id H e).state id out index).found = true ∧
    (get_resource ch (register_resource ch s id H e).state id out index).index =
      index.map (fun _ => s.free_index) ∧
    (get_resource ch (register_resource ch s id H e).state id out index).out =
      out.map (fun _ =>
        { id := ch id, name_str := id, content := H.content, length := H.length }) := by
  have hscan := scan_after_register ch s id H e hd hne hok
  rw [get_resource_of_some ch _ id out index s.free_index hscan]
  refine ⟨rfl, rfl, ?_⟩
  rw [register_resource_state_of_ok ch s id H e hok]
  simp [store]

/-- Witness of C2: registering "a" with a three-byte buffer on the pile that already
holds "bb", then looking "a" up with both output cells supplied. -/
theorem register_then_get_witness :
    dense (run String.length empty_pile [Call.register "bb" blank]) ∧
    (get_resource String.length
      (register_resource String.length
        (run String.length empty_pile [Call.register "bb" blank]) "a"
        { id := 0, name_str := "", content := some [7, 8, 9], length := 3 }
        (some ErrorType.NO_ERROR)).state "a" (some blank) (some 0)).index = some 1 ∧
    (get_resource String.length
      (register_resource String.length
        (run String.length empty_pile [Call.register "bb" blank]) "a"
        { id := 0, name_str := "", content := some [7, 8, 9], length := 3 }
        (some ErrorType.NO_ERROR)).state "a" (some blank) (some 0)).out =
      some { id := 1, name_str := "a", content := some [7, 8, 9], length := 3 } :=
  have hd : dense (run String.length empty_pile [Call.register "bb" blank]) :=
    dense_run String.length _ empty_pile (dense_of_empty _ rfl (fun _ _ => rfl))
      (by decide)
  ⟨hd,
    (register_then_get String.length
      (run String.length empty_pile [Call.register "bb" blank]) "a"
      { id := 0, name_str := "", content := some [7, 8, 9], length := 3 }
      (some ErrorType.NO_ERROR) (some blank) (some 0) hd (by decide) (by decide)).2⟩

/-- C3 (duplicate rejection): on a densely packed pile, for a name with a non-zero
hash, if `register_resource` returns `true` then a following `register_resource` under
the same name with any handle returns `false`, writes `MATCHING_ID_LOADED` to a
non-null error cell, and leaves `free_index` unchanged. -/
theorem register_twice_rejected (ch : String → HashID) (s : Registry) (id : String)
    (H1 H2 : ResourceHandle) (e1 e2 : Option ErrorType) (hd : dense s)
    (hne : ch id ≠ 0) (hok : (register_resource ch s id H1 e1).ok = true) :
    (register_resource ch (register_resource ch s id H1 e1).state id H2 e2).ok = false ∧
    (register_resource ch (register_resource ch s id H1 e1).state id H2 e2).error =
      e2.map (fun _ => ErrorType.MATCHING_ID_LOADED) ∧
    (register_resource ch (register_resource ch s id H1 e1).state id H2 e2).state.free_index
      = (register_resource ch s id H1 e1).state.free_index := by
  have hscan := scan_after_register ch s id H1 e1 hd hne hok
  have hf : (get_resource ch (register_resource ch s id H1 e1).state id none none).found
      = true := by
    rw [get_resource_of_some ch _ id none none s.free_index hscan]
  rw [register_resource_found ch _ id H2 e2 hf]
  exact ⟨rfl, rfl, rfl⟩

/-- Witness of C3: registering "a" twice on the program-start pile, the second time
with another buffer and an error cell holding `NO_ERROR`. -/
theorem register_twice_rejected_witness :
    dense empty_pile ∧
    (register_resource String.length empty_pile "a" blank none).ok = true ∧
    (register_resource String.length
      (register_resource String.length empty_pile "a" blank none).state "a"
      { id := 0, name_str := "", content := some [1], length := 1 }
      (some ErrorType.NO_ERROR)).error = some ErrorType.MATCHING_ID_LOADED ∧
    (register_resource String.length
      (register_resource String.length empty_pile "a" blank none).state "a"
      { id := 0, name_str := "", content := some [1], length := 1 }
      (some ErrorType.NO_ERROR)).state.free_index = 1 :=
  ⟨dense_of_empty _ rfl (fun _ _ => rfl), by decide,
    (register_twice_rejected String.length empty_pile "a" blank
      { id := 0, name_str := "", content := some [1], length := 1 } none
      (some ErrorType.NO_ERROR) (dense_of_empty _ rfl (fun _ _ => rfl)) (by decide)
      (by decide)).2⟩

/-! ### Runs of registrations -/

/-- Every successful registration of a run advances `free_index` by one. -/
theorem register_seq_free_index (ch : String → HashID) :
    ∀ (regs : List (String × ResourceHandle)) (s : Registry),
      register_seq_ok ch s regs = true →
      (register_seq ch s regs).free_index = s.free_index + regs.length := by
  intro regs
  induction regs with
  | nil => intro s _; rfl
  | cons x rest ih =>
    intro s h
    obtain ⟨id, r⟩ := x
    simp only [register_seq_ok, Bool.and_eq_true] at h
    simp only [register_seq]
    rw [ih _ h.2, register_resource_state_of_ok ch s id r none h.1]
    simp only [List.length_cons]
    omega

/-- Registrations under names with pairwise distinct non-zero hashes, none of them on
the pile yet, all succeed as long as there is room; the pile stays densely packed and
every active identifier is an old one or the hash of one of the names. -/
theorem register_seq_all_ok (ch : String → HashID) :
    ∀ (regs : List (String × ResourceHandle)) (s : Registry), dense s →
      (∀ x, x ∈ regs → ch x.1 ≠ 0) →
      (regs.map (fun x => ch x.1)).Nodup →
      (∀ x, x ∈ regs → ∀ k, k < s.free_index → (s.resource_pile k).id ≠ ch x.1) →
      s.free_index + regs.length ≤ MAX_RESOURCES →
      register_seq_ok ch s regs = true ∧ dense (register_seq ch s regs) ∧
      ∀ k, k < (register_seq ch s regs).free_index →
        (∃ k2, k2 < s.free_index ∧
          ((register_seq ch s regs).resource_pile k).id = (s.resource_pile k2).id) ∨
        ∃ x, x ∈ regs ∧ ((register_seq ch s regs).resource_pile k).id = ch x.1 := by
  intro regs
  induction regs with
  | nil =>
    intro s hd _ _ _ _
    exact ⟨rfl, hd, fun k hk => Or.inl ⟨k, hk, rfl⟩⟩
  | cons x rest ih =>
    intro s hd hne hnd hfresh hroom
    obtain ⟨id, r⟩ := x
    simp only [List.length_cons] at hroom
    simp only [List.map_cons, List.nodup_cons] at hnd
    have hnf : (get_resource ch s id none none).found = false := by
      cases hf : (get_resource ch s id none none).found with
      | false => rfl
      | true =>
        obtain ⟨k, hk, hid⟩ := (dense_found_iff ch s id none none hd).mp hf
        exact absurd hid (hfresh (id, r) (List.mem_cons_self _ _) k hk)
    have hok : (register_resource ch s id r none).ok = true :=
      (register_resource_ok_iff ch s id r none).mpr ⟨hnf, by omega⟩
    have hst := register_resource_state_of_ok ch s id r none hok
    have hd1 : dense (register_resource ch s id r none).state :=
      dense_register ch s id r none hd (hne (id, r) (List.mem_cons_self _ _))
    have hfi1 : (register_resource ch s id r none).state.free_index = s.free_index + 1 := by
      rw [hst]
    have hslot : ∀ k, (register_resource ch s id r none).state.resource_pile k =
        store s.resource_pile s.free_index { r with id := ch id, name_str := id } k := by
      intro k; rw [hst]
    have hfresh1 : ∀ x, x ∈ rest → ∀ k,
        k < (register_resource ch s id r none).state.free_index →
        ((register_resource ch s id r none).state.resource_pile k).id ≠ ch x.1 := by
      intro x hx k hk
      rw [hfi1] at hk
      rw [hslot k]
      by_cases hkf : k = s.free_index
      · rw [hkf, store_same]
        intro heq
        exact hnd.1 (List.mem_map.mpr ⟨x, hx, heq.symm⟩)
      · rw [store_other _ _ _ _ hkf]
        exact hfresh x (List.mem_cons_of_mem _ hx) k (by omega)
    obtain ⟨h1, h2, h3⟩ := ih (register_resource ch s id r none).state hd1
      (fun x hx => hne x (List.mem_cons_of_mem _ hx)) hnd.2 hfresh1 (by rw [hfi1]; omega)
    simp only [register_seq, register_seq_ok]
    refine ⟨by simp [hok, h1], h2, ?_⟩
    intro k hk
    rcases h3 k hk with ⟨k2, hk2, he⟩ | ⟨x, hx, he⟩
    · rw [hfi1] at hk2
      rw [hslot k2] at he
      by_cases hkf : k2 = s.free_index
      · rw [hkf, store_same] at he
        exact Or.inr ⟨(id, r), List.mem_cons_self _ _, he⟩
      · rw [store_other _ _ _ _ hkf] at he
        exact Or.inl ⟨k2, by omega, he⟩
    · exact Or.inr ⟨x, List.mem_cons_of_mem _ hx, he⟩

theorem length_letters (n : Nat) : (letters n).length = n := by
  simp [letters, String.length]

theorem length_capacity_regs : capacity_regs.length = MAX_RESOURCES := by
  simp [capacity_regs]

theorem mem_capacity_regs (x : String × ResourceHandle) (hx : x ∈ capacity_regs) :
    0 < x.1.length ∧ x.1.length ≤ MAX_RESOURCES := by
  simp only [capacity_regs, List.mem_map, List.mem_range] at hx
  obtain ⟨n, hn, rfl⟩ := hx
  simp only [length_letters]
  omega

/-- The registrations of `capacity_regs` all succeed from program start, and fill
the pile: it is densely packed with `free_index = MAX_RESOURCES` and every identifier
is between 1 and `MAX_RESOURCES`. -/
theorem capacity_regs_spec :
    register_seq_ok String.length empty_pile capacity_regs = true ∧
    dense (register_seq String.length empty_pile capacity_regs) ∧
    (register_seq String.length empty_pile capacity_regs).free_index = MAX_RESOURCES ∧
    ∀ k, k < MAX_RESOURCES →
      0 < ((register_seq String.length empty_pile capacity_regs).resource_pile k).id ∧
      ((register_seq String.length empty_pile capacity_regs).resource_pile k).id
        ≤ MAX_RESOURCES := by
  have hnd : (capacity_regs.map (fun x => String.length x.1)).Nodup := by
    have : capacity_regs.map (fun x => String.length x.1) =
        (List.range MAX_RESOURCES).map (fun n => n + 1) := by
      simp only [capacity_regs, List.map_map]
      apply List.map_congr_left
      intro n _
      simp [length_letters]
    rw [this]
    exact (List.nodup_range _).map (fun a b h => by simpa using h)
  have hroom : empty_pile.free_index + capacity_regs.length ≤ MAX_RESOURCES := by
    rw [length_capacity_regs]
    show 0 + MAX_RESOURCES ≤ MAX_RESOURCES
    omega
  obtain ⟨h1, h2, h3⟩ := register_seq_all_ok String.length capacity_regs empty_pile
    (dense_of_empty _ rfl (fun _ _ => rfl))
    (fun x hx => Nat.pos_iff_ne_zero.mp (mem_capacity_regs x hx).1) hnd
    (fun _ _ k hk => absurd hk (Nat.not_lt_zero k)) hroom
  have hfi : (register_seq String.length empty_pile capacity_regs).free_index
      = MAX_RESOURCES := by
    rw [register_seq_free_index String.length capacity_regs empty_pile h1,
      length_capacity_regs]
    show 0 + MAX_RESOURCES = MAX_RESOURCES
    omega
  refine ⟨h1, h2, hfi, ?_⟩
  intro k hk
  rw [← hfi] at hk
  rcases h3 k hk with ⟨k2, hk2, _⟩ | ⟨x, hx, he⟩
  · exact absurd hk2 (Nat.not_lt_zero k2)
  · have hx2 := mem_capacity_regs x hx
    rw [he]; exact hx2

theorem full_pile_def :
    full_pile = register_seq String.length empty_pile capacity_regs := rfl

/-- The pile `full_pile` is densely packed and full. -/
theorem full_pile_spec :
    dense full_pile ∧ full_pile.free_index = MAX_RESOURCES ∧
    ∀ k, k < MAX_RESOURCES → (full_pile.resource_pile k).id ≠ 0 := by
  rw [full_pile_def]
  exact ⟨capacity_regs_spec.2.1, capacity_regs_spec.2.2.1,
    fun k hk => Nat.pos_iff_ne_zero.mp (capacity_regs_spec.2.2.2 k hk).1⟩

/-- C4 (capacity boundary): starting from an empty pile, after a run of exactly
`MAX_RESOURCES` registrations that all returned `true`, a further `register_resource`
under a name whose non-zero hash differs from every stored identifier returns `false`,
writes `RESOURCE_LIMIT_REACHED` to a non-null error cell, and leaves `free_index` at
`MAX_RESOURCES` and every slot as it was. -/
theorem register_beyond_capacity (ch : String → HashID) (s0 : Registry)
    (h0 : s0.free_index = 0)
    (_hz : ∀ i, i < MAX_RESOURCES → (s0.resource_pile i).id = 0)
    (regs : List (String × ResourceHandle)) (hlen : regs.length = MAX_RESOURCES)
    (hall : register_seq_ok ch s0 regs = true)
    (id : String) (H : ResourceHandle) (e : Option ErrorType) (_hne : ch id ≠ 0)
    (hfresh : ∀ i, i < MAX_RESOURCES →
      ((register_seq ch s0 regs).resource_pile i).id ≠ ch id) :
    (register_resource ch (register_seq ch s0 regs) id H e).ok = false ∧
    (register_resource ch (register_seq ch s0 regs) id H e).error =
      e.map (fun _ => ErrorType.RESOURCE_LIMIT_REACHED) ∧
    (register_resource ch (register_seq ch s0 regs) id H e).state.free_index
      = MAX_RESOURCES ∧
    (register_seq ch s0 regs).free_index = MAX_RESOURCES ∧
    ∀ i, (register_resource ch (register_seq ch s0 regs) id H e).state.resource_pile i
      = (register_seq ch s0 regs).resource_pile i := by
  have hfi : (register_seq ch s0 regs).free_index = MAX_RESOURCES := by
    rw [register_seq_free_index ch regs s0 hall, h0, hlen]; omega
  have hnf : (get_resource ch (register_seq ch s0 regs) id none none).found = false := by
    rw [get_resource_of_none ch _ id none none
      ((scan_full_none_iff _ _).mpr (fun k hk _ => hfresh k hk))]
  rw [register_resource_full ch _ id H e hnf (by omega)]
  exact ⟨rfl, rfl, hfi, hfi, fun _ => rfl⟩

/-- Witness of C4: the `MAX_RESOURCES` registrations `a`, `aa`, ... from program start,
then a registration under the name of `MAX_RESOURCES + 1` letters with an error cell
holding `NO_ERROR`. -/
theorem register_beyond_capacity_witness :
    capacity_regs.length = MAX_RESOURCES ∧
    register_seq_ok String.length empty_pile capacity_regs = true ∧
    (register_resource String.length
      (register_seq String.length empty_pile capacity_regs)
      (letters (MAX_RESOURCES + 1)) blank (some ErrorType.NO_ERROR)).ok = false ∧
    (register_resource String.length
      (register_seq String.length empty_pile capacity_regs)
      (letters (MAX_RESOURCES + 1)) blank (some ErrorType.NO_ERROR)).error =
      some ErrorType.RESOURCE_LIMIT_REACHED ∧
    (register_resource String.length
      (register_seq String.length empty_pile capacity_regs)
      (letters (MAX_RESOURCES + 1)) blank (some ErrorType.NO_ERROR)).state.free_index
      = MAX_RESOURCES :=
  have h := register_beyond_capacity String.length empty_pile rfl (fun _ _ => rfl)
    capacity_regs length_capacity_regs capacity_regs_spec.1 (letters (MAX_RESOURCES + 1))
    blank (some ErrorType.NO_ERROR)
    (by rw [length_letters]; exact Nat.succ_ne_zero _)
    (fun i hi => by
      rw [length_letters]
      have := (capacity_regs_spec.2.2.2 i hi).2
      exact Nat.ne_of_lt (Nat.lt_succ_of_le this))
  ⟨length_capacity_regs, capacity_regs_spec.1, h.1, h.2.1, h.2.2.1⟩

/-- C5 (compaction order): on a densely packed pile, removing the entry at an index
`k < free_index` (a full pile included) leaves as active handles the previous active
handles with the `k`-th erased, in the same order, lowers `free_index` by exactly one,
and leaves the identifier 0 in the slot that was the last active one. -/
theorem destroy_resource_index_compacts (s : Registry) (k : Nat) (hd : dense s)
    (hk : k < s.free_index) :
    active (destroy_resource_index s k) = (active s).eraseIdx k ∧
    (destroy_resource_index s k).free_index + 1 = s.free_index ∧
    ((destroy_resource_index s k).resource_pile (s.free_index - 1)).id = 0 := by
  have hslot := destroy_resource_index_slot s k hd hk
  have hfi := destroy_resource_index_free_index s k hk
  have hdd := dense_destroy_resource_index s k hd hk
  obtain ⟨hle, hnz, hz⟩ := hd
  refine ⟨?_, by omega, ?_⟩
  · apply List.ext_getElem?
    intro j
    rw [active_getElem?, List.getElem?_eraseIdx, active_getElem?, active_getElem?, hfi,
      hslot j]
    by_cases hjk : j < k
    · have h1 : j < s.free_index - 1 := by omega
      have h2 : j < s.free_index := by omega
      have h3 : ¬ (k ≤ j ∧ j < s.free_index) := by omega
      rw [if_pos h1, if_pos hjk, if_pos h2, if_neg h3]
    · rw [if_neg hjk]
      by_cases hjc : j < s.free_index - 1
      · have h2 : j + 1 < s.free_index := by omega
        have h3 : k ≤ j ∧ j < s.free_index := by omega
        have h4 : j + 1 < MAX_RESOURCES := by omega
        rw [if_pos hjc, if_pos h2, if_pos h3, if_pos h4]
      · have h2 : ¬ (j + 1 < s.free_index) := by omega
        rw [if_neg hjc, if_neg h2]
  · have := hdd.2.2 (s.free_index - 1) (by omega) (by omega)
    exact this

/-- Witness of C5: the pile holding "a", "bb", "ccc" in this order, entry 0 removed;
the active handles are then those of "bb" and "ccc", in this order. -/
theorem destroy_resource_index_compacts_witness :
    dense (register_seq String.length empty_pile
      [("a", blank), ("bb", blank), ("ccc", blank)]) ∧
    0 < (register_seq String.length empty_pile
      [("a", blank), ("bb", blank), ("ccc", blank)]).free_index ∧
    active (destroy_resource_index (register_seq String.length empty_pile
      [("a", blank), ("bb", blank), ("ccc", blank)]) 0) =
      [{ id := 2, name_str := "bb", content := none, length := 0 },
       { id := 3, name_str := "ccc", content := none, length := 0 }] :=
  have hd : dense (register_seq String.length empty_pile
      [("a", blank), ("bb", blank), ("ccc", blank)]) :=
    (register_seq_all_ok String.length [("a", blank), ("bb", blank), ("ccc", blank)]
      empty_pile (dense_of_empty _ rfl (fun _ _ => rfl)) (by decide) (by decide)
      (fun _ _ k hk => absurd hk (Nat.not_lt_zero k)) (by decide)).2.1
  ⟨hd, by decide,
    (destroy_resource_index_compacts _ 0 hd (by decide)).1.trans (by decide)⟩

/-! ### `pop_resource` and `quit` -/

theorem pop_resource_zero (s : Registry) (h : s.free_index = 0) :
    pop_resource s = (blank, s) := by
  simp [pop_resource, h]

/-- Below the capacity `pop_resource` removes the top entry: it returns the handle
stored at `free_index - 1`, zeroes that slot's identifier and lowers `free_index`. -/
theorem pop_resource_below_capacity (s : Registry) (h0 : 0 < s.free_index)
    (h1 : s.free_index < MAX_RESOURCES) :
    (pop_resource s).1 = s.resource_pile (s.free_index - 1) ∧
    (pop_resource s).2.free_index = s.free_index - 1 ∧
    ((pop_resource s).2.resource_pile (s.free_index - 1)).id = 0 ∧
    ∀ j, j ≠ s.free_index - 1 →
      (pop_resource s).2.resource_pile j = s.resource_pile j := by
  have hc : 0 < s.free_index ∧ s.free_index < MAX_RESOURCES := ⟨h0, h1⟩
  unfold pop_resource
  rw [if_pos hc]
  exact ⟨rfl, rfl, by simp [store], fun j hj => store_other _ _ _ _ hj⟩

/-- At `free_index = MAX_RESOURCES` the bound check of `pop_resource` fails: the call
returns the blank handle and changes nothing. -/
theorem pop_resource_at_capacity (s : Registry) (h : s.free_index = MAX_RESOURCES) :
    pop_resource s = (blank, s) := by
  simp [pop_resource, h]

theorem pop_resource_at_capacity_slots (s : Registry)
    (h : s.free_index = MAX_RESOURCES) :
    (pop_resource s).1.id = 0 ∧ (pop_resource s).2.free_index = s.free_index ∧
    ∀ j, (pop_resource s).2.resource_pile j = s.resource_pile j := by
  rw [pop_resource_at_capacity s h]
  exact ⟨rfl, rfl, fun _ => rfl⟩

theorem MAX_RESOURCES_pos : 0 < MAX_RESOURCES := by decide

/-- Below the capacity `quit` returns after `free_index` iterations, with `free_index`
at 0 and identifier 0 in every slot that was active. -/
theorem quit_below_capacity :
    ∀ (n : Nat) (s : Registry), s.free_index = n → n < MAX_RESOURCES →
      ∃ s2, quit (n + 1) s = some s2 ∧ s2.free_index = 0 ∧
        ∀ j, (j < n → (s2.resource_pile j).id = 0) ∧
          (n ≤ j → s2.resource_pile j = s.resource_pile j) := by
  intro n
  induction n with
  | zero =>
    intro s h0 _
    refine ⟨s, by simp [quit, h0], h0, fun j => ⟨fun hj => by omega, fun _ => rfl⟩⟩
  | succ n ih =>
    intro s hs hlt
    obtain ⟨_, p2, p3, p4⟩ := pop_resource_below_capacity s (by omega) (by omega)
    obtain ⟨s2, q1, q2, q3⟩ := ih (pop_resource s).2 (by rw [p2]; omega) (by omega)
    have hpos : 0 < s.free_index := by omega
    refine ⟨s2, by rw [quit, if_pos hpos]; exact q1, q2, fun j => ⟨?_, ?_⟩⟩
    · intro hj
      by_cases hjn : j < n
      · exact (q3 j).1 hjn
      · have hjeq : j = s.free_index - 1 := by omega
        rw [(q3 j).2 (by omega), hjeq]
        exact p3
    · intro hj
      rw [(q3 j).2 (by omega)]
      exact p4 j (by omega)

/-- On a full pile the loop of `quit` never ends: whatever the number of iterations
allowed, it is still running. -/
theorem quit_at_capacity (s : Registry) (h : s.free_index = MAX_RESOURCES) :
    ∀ fuel, quit fuel s = none := by
  intro fuel
  induction fuel with
  | zero => rfl
  | succ fuel ih =>
    have hpos : 0 < s.free_index := by rw [h]; exact MAX_RESOURCES_pos
    rw [quit, if_pos hpos, pop_resource_at_capacity s h]
    exact ih

/-- C6 (drain completeness), evaluated at the failing input: the pile left by
`MAX_RESOURCES` successful registrations from program start is densely packed with
`free_index = MAX_RESOURCES`, and `quit` on it is still looping after any number of
iterations, because `pop_resource` refuses a full pile. -/
theorem quit_never_returns_on_full_pile :
    register_seq_ok String.length empty_pile capacity_regs = true ∧
    dense full_pile ∧ full_pile.free_index = MAX_RESOURCES ∧
    ∀ fuel, quit fuel full_pile = none :=
  ⟨capacity_regs_spec.1, full_pile_spec.1, full_pile_spec.2.1,
    quit_at_capacity full_pile full_pile_spec.2.1⟩

/-- C7 (`pop_resource`), evaluated at the failing input: on the full pile, whose top
slot `MAX_RESOURCES - 1` holds a non-zero identifier, `pop_resource` returns the blank
handle with identifier 0 instead of the top entry, and leaves `free_index` and every
slot as they were. -/
theorem pop_resource_refuses_full_pile :
    0 < full_pile.free_index ∧ full_pile.free_index ≤ MAX_RESOURCES ∧
    (full_pile.resource_pile (full_pile.free_index - 1)).id ≠ 0 ∧
    (pop_resource full_pile).1.id = 0 ∧
    (pop_resource full_pile).2.free_index = full_pile.free_index ∧
    ∀ j, (pop_resource full_pile).2.resource_pile j = full_pile.resource_pile j := by
  have hfi : full_pile.free_index = MAX_RESOURCES := full_pile_spec.2.1
  have hpos : 0 < full_pile.free_index := by rw [hfi]; exact MAX_RESOURCES_pos
  have htop : (full_pile.resource_pile (full_pile.free_index - 1)).id ≠ 0 :=
    full_pile_spec.2.2 (full_pile.free_index - 1) (by omega)
  have hpop := pop_resource_at_capacity_slots full_pile hfi
  exact ⟨hpos, by omega, htop, hpop⟩

/-- C8 (`push_resource`): the call returns `true` exactly when
`free_index < MAX_RESOURCES`; when it returns `true` the slot at the old `free_index`
equals the pushed handle, `free_index` has grown by exactly one and every other slot is
unchanged; when it returns `false` the state is unchanged. No identifier is compared:
the call returns `true` below the capacity even when some slot already carries the
identifier of the pushed handle. -/
theorem push_resource_spec (s : Registry) (h : ResourceHandle) :
    ((push_resource s h).1 = true ↔ s.free_index < MAX_RESOURCES) ∧
    ((push_resource s h).1 = true →
      (push_resource s h).2.resource_pile s.free_index = h ∧
      (push_resource s h).2.free_index = s.free_index + 1 ∧
      ∀ j, j ≠ s.free_index →
        (push_resource s h).2.resource_pile j = s.resource_pile j) ∧
    ((push_resource s h).1 = false →
      (push_resource s h).2.free_index = s.free_index ∧
      ∀ j, (push_resource s h).2.resource_pile j = s.resource_pile j) ∧
    (∀ j, (s.resource_pile j).id = h.id → s.free_index < MAX_RESOURCES →
      (push_resource s h).1 = true) := by
  rcases Nat.lt_or_ge s.free_index MAX_RESOURCES with hlt | hge
  · rw [push_resource_lt s h hlt]
    refine ⟨⟨fun _ => hlt, fun _ => rfl⟩, fun _ => ⟨store_same _ _ _, rfl, ?_⟩, ?_,
      fun _ _ _ => rfl⟩
    · intro j hj
      exact store_other _ _ _ _ hj
    · intro hf; cases hf
  · rw [push_resource_ge s h hge]
    refine ⟨⟨fun hf => (by cases hf), fun hlt => (by omega)⟩, fun hf => (by cases hf),
      fun _ => ⟨rfl, fun _ => rfl⟩, fun _ _ hlt => (by omega)⟩

/-- C9 (`get_resource`): the call returns `true` exactly when some slot
`i < MAX_RESOURCES` carries the hash of the name while every slot `j ≤ i` has a
non-zero identifier; it then writes the least such index to a non-null index cell and
the content of that slot to a non-null output cell; and in every case the state after
the call is the state before it. -/
theorem get_resource_spec (ch : String → HashID) (s : Registry) (id : String)
    (out : Option ResourceHandle) (index : Option Nat) :
    ((get_resource ch s id out index).found = true ↔
      ∃ i, i < MAX_RESOURCES ∧ (s.resource_pile i).id = ch id ∧
        ∀ j, j ≤ i → (s.resource_pile j).id ≠ 0) ∧
    ((get_resource ch s id out index).found = true →
      ∃ i, (i < MAX_RESOURCES ∧ (s.resource_pile i).id = ch id ∧
          ∀ j, j ≤ i → (s.resource_pile j).id ≠ 0) ∧
        (∀ i2, i2 < MAX_RESOURCES → (s.resource_pile i2).id = ch id →
          (∀ j, j ≤ i2 → (s.resource_pile j).id ≠ 0) → i ≤ i2) ∧
        (get_resource ch s id out index).index = index.map (fun _ => i) ∧
        (get_resource ch s id out index).out = out.map (fun _ => s.resource_pile i)) ∧
    (get_resource ch s id out index).state.free_index = s.free_index ∧
    ∀ j, (get_resource ch s id out index).state.resource_pile j = s.resource_pile j := by
  cases hscan : get_resource_scan s.resource_pile (ch id) MAX_RESOURCES 0 with
  | none =>
    rw [get_resource_of_none ch s id out index hscan]
    have hnone := (scan_full_none_iff _ _).mp hscan
    refine ⟨⟨fun hf => (by cases hf), ?_⟩, fun hf => (by cases hf), rfl, fun _ => rfl⟩
    rintro ⟨i, h1, h2, h3⟩
    exact absurd h2 (hnone i h1 h3)
  | some k =>
    rw [get_resource_of_some ch s id out index k hscan]
    obtain ⟨h1, h2, h3, h4⟩ := (scan_full_some_iff _ _ k).mp hscan
    refine ⟨⟨fun _ => ⟨k, h1, h2, h3⟩, fun _ => rfl⟩,
      fun _ => ⟨k, ⟨h1, h2, h3⟩, ?_, rfl, rfl⟩, rfl, fun _ => rfl⟩
    intro i2 _ hid _
    by_contra hlt
    exact h4 i2 (by omega) hid

/-- C10 (missing lookup): for every pile and every name, if the hash of the name is 0,
or if no slot that precedes the first slot with identifier 0 carries the hash of the
name (whatever the slots after that first empty slot carry), then `get_resource`
returns `false` and leaves the output cell and the index cell as they were. -/
theorem get_resource_missing (ch : String → HashID) (s : Registry) (id : String)
    (out : Option ResourceHandle) (index : Option Nat)
    (h : ch id = 0 ∨ ∀ i, i < MAX_RESOURCES →
      (∀ j, j ≤ i → (s.resource_pile j).id ≠ 0) → (s.resource_pile i).id ≠ ch id) :
    (get_resource ch s id out index).found = false ∧
    (get_resource ch s id out index).out = out ∧
    (get_resource ch s id out index).index = index := by
  have hnone : get_resource_scan s.resource_pile (ch id) MAX_RESOURCES 0 = none := by
    rw [scan_full_none_iff]
    rcases h with h0 | hm
    · intro k _ hnz hid
      exact hnz k (le_refl k) (hid.trans h0)
    · exact hm
  rw [get_resource_of_none ch s id out index hnone]
  exact ⟨rfl, rfl, rfl⟩

/-- Witness of C10: on the pile whose slot 0 is empty while slot 1 carries the hash of
"a", the lookup of "a" finds nothing and leaves both cells alone; and on the pile that
holds "a", the lookup of the empty name, whose hash is 0, finds nothing. -/
theorem get_resource_missing_witness :
    ((store empty_pile.resource_pile 1
        { id := 1, name_str := "a", content := none, length := 0 }) 1).id
      = String.length "a" ∧
    ((get_resource String.length
        { resource_pile := store empty_pile.resource_pile 1
            { id := 1, name_str := "a", content := none, length := 0 },
          free_index := 0 } "a" (some blank) (some 7)).found = false ∧
      (get_resource String.length
        { resource_pile := store empty_pile.resource_pile 1
            { id := 1, name_str := "a", content := none, length := 0 },
          free_index := 0 } "a" (some blank) (some 7)).out = some blank ∧
      (get_resource String.length
        { resource_pile := store empty_pile.resource_pile 1
            { id := 1, name_str := "a", content := none, length := 0 },
          free_index := 0 } "a" (some blank) (some 7)).index = some 7) ∧
    (get_resource String.length (register_seq String.length empty_pile [("a", blank)])
      "" none none).found = false :=
  ⟨by decide,
    get_resource_missing String.length
      { resource_pile := store empty_pile.resource_pile 1
          { id := 1, name_str := "a", content := none, length := 0 },
        free_index := 0 } "a" (some blank) (some 7)
      (Or.inr (fun i _ hnz _ => hnz 0 (Nat.zero_le i) rfl)),
    (get_resource_missing String.length
      (register_seq String.length empty_pile [("a", blank)]) "" none none
      (Or.inl rfl)).1⟩

/-- C11 (`destroy_resource` by name): the call returns `true` exactly when
`get_resource` under the same name returns `true` on the state before the call; when it
returns `false`, `free_index` and every slot are unchanged; when it returns `true`, on
every pile and so on every densely packed one, the state after the call is the state
that `destroy_resource_index` yields for the index that `get_resource` writes to its
index cell. -/
theorem destroy_resource_spec (ch : String → HashID) (s : Registry) (id : String) :
    ((destroy_resource ch s id).1 = true ↔
      (get_resource ch s id none none).found = true) ∧
    ((destroy_resource ch s id).1 = false →
      (destroy_resource ch s id).2.free_index = s.free_index ∧
      ∀ j, (destroy_resource ch s id).2.resource_pile j = s.resource_pile j) ∧
    ((destroy_resource ch s id).1 = true →
      ∃ i, (∀ i0, (get_resource ch s id none (some i0)).index = some i) ∧
        (destroy_resource ch s id).2 = destroy_resource_index s i) := by
  cases hscan : get_resource_scan s.resource_pile (ch id) MAX_RESOURCES 0 with
  | none =>
    rw [destroy_resource_of_not_found ch s id hscan,
      get_resource_of_none ch s id none none hscan]
    exact ⟨⟨fun hf => (by cases hf), fun hf => (by cases hf)⟩,
      fun _ => ⟨rfl, fun _ => rfl⟩, fun hf => (by cases hf)⟩
  | some k =>
    rw [destroy_resource_of_found ch s id k hscan,
      get_resource_of_some ch s id none none k hscan]
    refine ⟨⟨fun _ => rfl, fun _ => rfl⟩, fun hf => (by cases hf), fun _ => ⟨k, ?_, rfl⟩⟩
    intro i0
    rw [get_resource_of_some ch s id none (some i0) k hscan]
    rfl

/-- Witness of C11: on the pile holding "a" and "bb", the destruction of "bb" returns
`true` and acts as the removal at index 1, the index the lookup of "bb" reports; the
destruction of "ccc" returns `false` and leaves `free_index` at 2. -/
theorem destroy_resource_spec_witness :
    (destroy_resource String.length
      (register_seq String.length empty_pile [("a", blank), ("bb", blank)]) "bb").1
      = true ∧
    (get_resource String.length
      (register_seq String.length empty_pile [("a", blank), ("bb", blank)]) "bb" none
      (some 0)).index = some 1 ∧
    (∃ i, (∀ i0, (get_resource String.length
        (register_seq String.length empty_pile [("a", blank), ("bb", blank)]) "bb" none
        (some i0)).index = some i) ∧
      (destroy_resource String.length
        (register_seq String.length empty_pile [("a", blank), ("bb", blank)]) "bb").2 =
      destroy_resource_index
        (register_seq String.length empty_pile [("a", blank), ("bb", blank)]) i) ∧
    (destroy_resource String.length
      (register_seq String.length empty_pile [("a", blank), ("bb", blank)]) "ccc").2.free_index
      = 2 :=
  ⟨by decide, by decide,
    (destroy_resource_spec String.length
      (register_seq String.length empty_pile [("a", blank), ("bb", blank)]) "bb").2.2
      (by decide),
    ((destroy_resource_spec String.length
      (register_seq String.length empty_pile [("a", blank), ("bb", blank)]) "ccc").2.1
      (by decide)).1⟩

/-- The result of `get_resource` depends on the name only through its hash. -/
theorem get_resource_congr (ch : String → HashID) (s : Registry) (n1 n2 : String)
    (out : Option ResourceHandle) (index : Option Nat) (hcol : ch n1 = ch n2) :
    get_resource ch s n1 out index = get_resource ch s n2 out index := by
  simp only [get_resource, hcol]

/-- C12 (hash-collision aliasing): for two distinct names with the same non-zero hash
and a densely packed pile, `get_resource` returns the same result under both names;
and once `register_resource` under the first name has returned `true`, a
`register_resource` under the second name returns `false` and writes
`MATCHING_ID_LOADED` to a non-null error cell, and `get_resource` under the second name
returns `true` and writes to a non-null output cell the entry stored for the first
name, whose name member is the first name. -/
theorem hash_collision_aliasing (ch : String → HashID) (s : Registry) (n1 n2 : String)
    (H H2 : ResourceHandle) (e e2 : Option ErrorType) (out : Option ResourceHandle)
    (index : Option Nat) (_hdist : n1 ≠ n2) (hcol : ch n1 = ch n2) (hne : ch n1 ≠ 0)
    (hd : dense s) :
    get_resource ch s n1 out index = get_resource ch s n2 out index ∧
    ((register_resource ch s n1 H e).ok = true →
      (register_resource ch (register_resource ch s n1 H e).state n2 H2 e2).ok = false ∧
      (register_resource ch (register_resource ch s n1 H e).state n2 H2 e2).error =
        e2.map (fun _ => ErrorType.MATCHING_ID_LOADED) ∧
      (get_resource ch (register_resource ch s n1 H e).state n2 out index).found = true ∧
      (get_resource ch (register_resource ch s n1 H e).state n2 out index).out =
        out.map (fun _ =>
          { id := ch n1, name_str := n1, content := H.content, length := H.length })) := by
  refine ⟨get_resource_congr ch s n1 n2 out index hcol, ?_⟩
  intro hok
  have hscan := scan_after_register ch s n1 H e hd hne hok
  rw [hcol] at hscan
  have hf : (get_resource ch (register_resource ch s n1 H e).state n2 none none).found
      = true := by
    rw [get_resource_of_some ch _ n2 none none s.free_index hscan]
  rw [register_resource_found ch _ n2 H2 e2 hf,
    get_resource_of_some ch _ n2 out index s.free_index hscan]
  refine ⟨rfl, rfl, rfl, ?_⟩
  rw [register_resource_state_of_ok ch s n1 H e hok]
  simp [store]

/-- Witness of C12: the names "a" and "b" collide under the length hash; "a" is
registered on the program-start pile with a one-byte buffer, then "b" is refused and
its lookup returns the entry named "a". -/
theorem hash_collision_aliasing_witness :
    "a" ≠ "b" ∧ String.length "a" = String.length "b" ∧ dense empty_pile ∧
    (register_resource String.length empty_pile "a"
      { id := 0, name_str := "", content := some [5], length := 1 } none).ok = true ∧
    (register_resource String.length
      (register_resource String.length empty_pile "a"
        { id := 0, name_str := "", content := some [5], length := 1 } none).state
      "b" blank (some ErrorType.NO_ERROR)).error = some ErrorType.MATCHING_ID_LOADED ∧
    (get_resource String.length
      (register_resource String.length empty_pile "a"
        { id := 0, name_str := "", content := some [5], length := 1 } none).state
      "b" (some blank) (some 0)).out =
      some { id := 1, name_str := "a", content := some [5], length := 1 } :=
  have h := (hash_collision_aliasing String.length empty_pile "a" "b"
    { id := 0, name_str := "", content := some [5], length := 1 } blank none
    (some ErrorType.NO_ERROR) (some blank) (some 0) (by decide) (by decide) (by decide)
    (dense_of_empty _ rfl (fun _ _ => rfl))).2 (by decide)
  ⟨by decide, by decide, dense_of_empty _ rfl (fun _ _ => rfl), by decide, h.2.1, h.2.2.2⟩

/-- Copying `size` bytes into a freshly allocated block of `size` bytes leaves exactly
the first `size` bytes of the source in it. -/
theorem memcpy_allocate_resource (object : List Nat) (size : Nat) (junk : Nat → Nat) :
    memcpy (allocate_resource size junk).content object size
      = some (object.take size) := by
  have hlen : ((List.range size).map junk).length = size := by simp
  have hdrop : ((List.range size).map junk).drop size = [] :=
    List.drop_eq_nil_of_le (Nat.le_of_eq hlen)
  show some ((object.take size ++ ((List.range size).map junk).drop size).take
      ((List.range size).map junk).length) = some (object.take size)
  rw [hdrop, hlen, List.append_nil, List.take_take, Nat.min_self]

theorem allocate_resource_fields (size : Nat) (junk : Nat → Nat) :
    (allocate_resource size junk).id = 0 ∧ (allocate_resource size junk).name_str = "" ∧
    (allocate_resource size junk).length = size := ⟨rfl, rfl, rfl⟩

/-- The call `create_resource_from_data` is a registration of the handle that holds
the copied bytes; its result, error cell and state are those of the registration and
its output cell is the one it was given. -/
theorem create_resource_from_data_eq (ch : String → HashID) (s : Registry)
    (id : String) (object : List Nat) (size : Nat) (junk : Nat → Nat)
    (out : Option ResourceHandle) (error : Option ErrorType) :
    create_resource_from_data ch s id object size junk out error =
      { ok := (register_resource ch s id
          { id := 0, name_str := "", content := some (object.take size), length := size }
          error).ok
        out := out
        error := (register_resource ch s id
          { id := 0, name_str := "", content := some (object.take size), length := size }
          error).error
        state := (register_resource ch s id
          { id := 0, name_str := "", content := some (object.take size), length := size }
          error).state } := by
  unfold create_resource_from_data
  simp only [memcpy_allocate_resource]
  have hh : ({ allocate_resource size junk with content := some (object.take size) }
      : ResourceHandle) =
      { id := 0, name_str := "", content := some (object.take size), length := size } :=
    rfl
  rw [hh]
  cases hok : (register_resource ch s id
      { id := 0, name_str := "", content := some (object.take size), length := size }
      error).ok <;> simp

/-- C13 (`create_resource_from_data` and its output handle), evaluated at the failing
input: on the program-start pile, with the three bytes 1, 2, 3 registered under "a"
and an output cell holding the blank handle, the call returns `true` and stores the
handle with identifier 1, name "a", length 3 and the three bytes in slot 0, but the
output cell still holds the blank handle. -/
theorem create_resource_from_data_leaves_out :
    (create_resource_from_data String.length empty_pile "a" [1, 2, 3] 3 (fun _ => 0)
      (some blank) none).ok = true ∧
    (create_resource_from_data String.length empty_pile "a" [1, 2, 3] 3 (fun _ => 0)
      (some blank) none).state.resource_pile 0 =
      { id := 1, name_str := "a", content := some [1, 2, 3], length := 3 } ∧
    (create_resource_from_data String.length empty_pile "a" [1, 2, 3] 3 (fun _ => 0)
      (some blank) none).out = some blank := by
  decide

/-- C14 (`create_resource_from_data` stores a copy of the bytes): on a densely packed
pile with `free_index < MAX_RESOURCES`, for a name with a non-zero hash that
`get_resource` does not find and a block of at least `size` bytes, the call returns
`true`, raises `free_index` by exactly one, and `get_resource` under the name then
returns `true` with a handle of length `size` whose content is the first `size` bytes
of the block, which are `size` many; and on every state, when the call returns `false`
the value of `free_index` and every slot are unchanged. -/
theorem create_resource_from_data_spec (ch : String → HashID) (s : Registry)
    (id : String) (object : List Nat) (size : Nat) (junk : Nat → Nat)
    (out : Option ResourceHandle) (error : Option ErrorType) :
    (dense s → s.free_index < MAX_RESOURCES → ch id ≠ 0 →
      (get_resource ch s id none none).found = false → size ≤ object.length →
      (create_resource_from_data ch s id object size junk out error).ok = true ∧
      (create_resource_from_data ch s id object size junk out error).state.free_index
        = s.free_index + 1 ∧
      (object.take size).length = size ∧
      ∀ out2 index2,
        (get_resource ch
          (create_resource_from_data ch s id object size junk out error).state
          id out2 index2).found = true ∧
        (get_resource ch
          (create_resource_from_data ch s id object size junk out error).state
          id out2 index2).out = out2.map (fun _ =>
            { id := ch id, name_str := id, content := some (object.take size),
              length := size })) ∧
    ((create_resource_from_data ch s id object size junk out error).ok = false →
      (create_resource_from_data ch s id object size junk out error).state.free_index
        = s.free_index ∧
      ∀ j, (create_resource_from_data ch s id object size junk out error).state.resource_pile j
        = s.resource_pile j) := by
  rw [create_resource_from_data_eq]
  refine ⟨?_, ?_⟩
  · intro hd hlt hne hnf hsize
    have hok := (register_resource_ok_iff ch s id
      { id := 0, name_str := "", content := some (object.take size), length := size }
      error).mpr ⟨hnf, hlt⟩
    have hscan := scan_after_register ch s id _ error hd hne hok
    refine ⟨hok, ?_, by simp [hsize], ?_⟩
    · show (register_resource ch s id _ error).state.free_index = s.free_index + 1
      rw [register_resource_state_of_ok ch s id _ error hok]
    · intro out2 index2
      show (get_resource ch (register_resource ch s id _ error).state id out2 index2).found
          = true ∧
        (get_resource ch (register_resource ch s id _ error).state id out2 index2).out = _
      rw [get_resource_of_some ch _ id out2 index2 s.free_index hscan]
      refine ⟨rfl, ?_⟩
      rw [register_resource_state_of_ok ch s id _ error hok]
      simp [store]
  · intro hfail
    have hst := register_resource_state_of_not_ok ch s id
      { id := 0, name_str := "", content := some (object.take size), length := size }
      error hfail
    show (register_resource ch s id _ error).state.free_index = s.free_index ∧
      ∀ j, (register_resource ch s id _ error).state.resource_pile j = s.resource_pile j
    rw [hst]
    exact ⟨rfl, fun _ => rfl⟩

/-- Witness of C14: the first two of the bytes 1, 2, 3 created under "a" on the pile
that holds "bb"; and a second creation under "a", which fails and changes nothing. -/
theorem create_resource_from_data_spec_witness :
    dense (register_seq String.length empty_pile [("bb", blank)]) ∧
    (get_resource String.length
      (create_resource_from_data String.length
        (register_seq String.length empty_pile [("bb", blank)]) "a" [1, 2, 3] 2
        (fun _ => 0) none none).state "a" (some blank) none).out =
      some { id := 1, name_str := "a", content := some [1, 2], length := 2 } ∧
    (create_resource_from_data String.length
      (register_seq String.length empty_pile [("a", blank)]) "a" [1, 2, 3] 2
      (fun _ => 0) none none).state.free_index = 1 :=
  have hd : dense (register_seq String.length empty_pile [("bb", blank)]) :=
    (register_seq_all_ok String.length [("bb", blank)] empty_pile
      (dense_of_empty _ rfl (fun _ _ => rfl)) (by decide) (by decide)
      (fun _ _ k hk => absurd hk (Nat.not_lt_zero k)) (by decide)).2.1
  ⟨hd,
    (((create_resource_from_data_spec String.length
      (register_seq String.length empty_pile [("bb", blank)]) "a" [1, 2, 3] 2
      (fun _ => 0) none none).1 hd (by decide) (by decide) (by decide)
      (by decide)).2.2.2 (some blank) none).2,
    ((create_resource_from_data_spec String.length
      (register_seq String.length empty_pile [("a", blank)]) "a" [1, 2, 3] 2
      (fun _ => 0) none none).2 (by decide)).1⟩

/-- When the file opens, `load_resource` is a registration of the handle that holds
the bytes of the file. -/
theorem load_resource_some (ch : String → HashID) (s : Registry) (id : String)
    (bytes : List Nat) (junk : Nat → Nat) (out : Option ResourceHandle)
    (error : Option ErrorType) :
    load_resource ch s id (some bytes) junk out error =
      if (register_resource ch s id
          { id := 0, name_str := "", content := some bytes, length := bytes.length }
          error).ok = false then
        { ok := false, out := out
          error := (register_resource ch s id
            { id := 0, name_str := "", content := some bytes, length := bytes.length }
            error).error
          state := (register_resource ch s id
            { id := 0, name_str := "", content := some bytes, length := bytes.length }
            error).state }
      else
        { ok := true
          out := out.map (fun _ => (register_resource ch s id
            { id := 0, name_str := "", content := some bytes, length := bytes.length }
            error).resource)
          error := (register_resource ch s id
            { id := 0, name_str := "", content := some bytes, length := bytes.length }
            error).error.map (fun _ => ErrorType.NO_ERROR)
          state := (register_resource ch s id
            { id := 0, name_str := "", content := some bytes, length := bytes.length }
            error).state } := by
  have hm : memcpy (allocate_resource (bytes.length - 0) junk).content bytes
      (allocate_resource (bytes.length - 0) junk).length = some bytes := by
    have h := memcpy_allocate_resource bytes bytes.length junk
    rw [List.take_length] at h
    exact h
  have hh : ({ allocate_resource (bytes.length - 0) junk with content := some bytes }
      : ResourceHandle) =
      { id := 0, name_str := "", content := some bytes, length := bytes.length } := rfl
  simp only [load_resource, hm, hh]

/-- C15 (error reporting of `load_resource`): when the stream does not open the call
returns `false`, writes `FILE_NOT_FOUND` to a non-null error cell and leaves
`free_index` and every slot unchanged, whatever the name. When the file opens, the
call returns what `register_resource` returns for the handle holding the bytes of the
file; when that is `false` the error written is the one `register_resource` writes,
`MATCHING_ID_LOADED` or `RESOURCE_LIMIT_REACHED`, and the pile is unchanged; when it is
`true` the error written is `NO_ERROR`, the entry stored at the old `free_index` has the
byte length of the file as its length, and a non-null output cell receives that
entry. -/
theorem load_resource_spec (ch : String → HashID) (s : Registry) (id : String)
    (junk : Nat → Nat) (out : Option ResourceHandle) (error : Option ErrorType) :
    ((load_resource ch s id none junk out error).ok = false ∧
      (load_resource ch s id none junk out error).error
        = error.map (fun _ => ErrorType.FILE_NOT_FOUND) ∧
      (load_resource ch s id none junk out error).state.free_index = s.free_index ∧
      ∀ j, (load_resource ch s id none junk out error).state.resource_pile j
        = s.resource_pile j) ∧
    (∀ bytes,
      (load_resource ch s id (some bytes) junk out error).ok =
        (register_resource ch s id
          { id := 0, name_str := "", content := some bytes, length := bytes.length }
          error).ok ∧
      ((load_resource ch s id (some bytes) junk out error).ok = false →
        (load_resource ch s id (some bytes) junk out error).error =
          (register_resource ch s id
            { id := 0, name_str := "", content := some bytes, length := bytes.length }
            error).error ∧
        ((load_resource ch s id (some bytes) junk out error).error
            = error.map (fun _ => ErrorType.MATCHING_ID_LOADED) ∨
          (load_resource ch s id (some bytes) junk out error).error
            = error.map (fun _ => ErrorType.RESOURCE_LIMIT_REACHED)) ∧
        (load_resource ch s id (some bytes) junk out error).state.free_index
          = s.free_index ∧
        ∀ j, (load_resource ch s id (some bytes) junk out error).state.resource_pile j
          = s.resource_pile j) ∧
      ((load_resource ch s id (some bytes) junk out error).ok = true →
        (load_resource ch s id (some bytes) junk out error).error
          = error.map (fun _ => ErrorType.NO_ERROR) ∧
        (load_resource ch s id (some bytes) junk out error).state.free_index
          = s.free_index + 1 ∧
        (load_resource ch s id (some bytes) junk out error).state.resource_pile
            s.free_index =
          { id := ch id, name_str := id, content := some bytes,
            length := bytes.length } ∧
        (load_resource ch s id (some bytes) junk out error).out =
          out.map (fun _ =>
            (load_resource ch s id (some bytes) junk out error).state.resource_pile
              s.free_index))) := by
  refine ⟨⟨rfl, rfl, rfl, fun _ => rfl⟩, ?_⟩
  intro bytes
  rw [load_resource_some]
  cases hf : (get_resource ch s id none none).found with
  | true =>
    rw [register_resource_found ch s id _ error hf]
    refine ⟨rfl, fun _ => ⟨rfl, Or.inl rfl, rfl, fun _ => rfl⟩, fun h => ?_⟩
    simp at h
  | false =>
    rcases Nat.lt_or_ge s.free_index MAX_RESOURCES with hlt | hge
    · rw [register_resource_pushed ch s id _ error hf hlt]
      refine ⟨rfl, fun h => ?_, fun _ => ⟨?_, rfl, ?_, ?_⟩⟩
      · simp at h
      · simp
      · simp [store]
      · simp [store]
    · rw [register_resource_full ch s id _ error hf hge]
      refine ⟨rfl, fun _ => ⟨rfl, Or.inr rfl, rfl, fun _ => rfl⟩, fun h => ?_⟩
      simp at h

/-- Witness of C15: on the pile that holds "a", a load under "a" of a stream that does
not open reports `FILE_NOT_FOUND`, a load under "a" of a two-byte file reports
`MATCHING_ID_LOADED`, and a load under "bb" of the two-byte file reports `NO_ERROR` and
hands out the entry it stored. -/
theorem load_resource_spec_witness :
    (load_resource String.length (register_seq String.length empty_pile [("a", blank)])
      "a" none (fun _ => 0) none (some ErrorType.NO_ERROR)).error
      = some ErrorType.FILE_NOT_FOUND ∧
    (load_resource String.length (register_seq String.length empty_pile [("a", blank)])
      "a" (some [4, 2]) (fun _ => 0) none (some ErrorType.NO_ERROR)).error
      = some ErrorType.MATCHING_ID_LOADED ∧
    (load_resource String.length (register_seq String.length empty_pile [("a", blank)])
      "bb" (some [4, 2]) (fun _ => 0) (some blank) (some ErrorType.FILE_NOT_FOUND)).error
      = some ErrorType.NO_ERROR ∧
    (load_resource String.length (register_seq String.length empty_pile [("a", blank)])
      "bb" (some [4, 2]) (fun _ => 0) (some blank) (some ErrorType.FILE_NOT_FOUND)).out
      = some { id := 2, name_str := "bb", content := some [4, 2], length := 2 } :=
  ⟨(load_resource_spec String.length
      (register_seq String.length empty_pile [("a", blank)]) "a" (fun _ => 0) none
      (some ErrorType.NO_ERROR)).1.2.1,
    (((load_resource_spec String.length
      (register_seq String.length empty_pile [("a", blank)]) "a" (fun _ => 0) none
      (some ErrorType.NO_ERROR)).2 [4, 2]).2.1 (by decide)).1.trans (by decide),
    (((load_resource_spec String.length
      (register_seq String.length empty_pile [("a", blank)]) "bb" (fun _ => 0)
      (some blank) (some ErrorType.FILE_NOT_FOUND)).2 [4, 2]).2.2 (by decide)).1,
    (((load_resource_spec String.length
      (register_seq String.length empty_pile [("a", blank)]) "bb" (fun _ => 0)
      (some blank) (some ErrorType.FILE_NOT_FOUND)).2 [4, 2]).2.2
      (by decide)).2.2.2.trans (by decide)⟩

/-! ### Removal at an arbitrary index, unique identifiers -/

/-- At an empty slot the compaction loop breaks in its first iteration. -/
theorem destroy_resource_shift_empty (pile : Nat → ResourceHandle) (index : Nat)
    (hi : index < MAX_RESOURCES) (h0 : (pile index).id = 0) :
    destroy_resource_shift (MAX_RESOURCES - index) (index + 1) pile = pile := by
  obtain ⟨f, hf⟩ : ∃ f, MAX_RESOURCES - index = f + 1 := ⟨MAX_RESOURCES - index - 1, by omega⟩
  have hle : index + 1 ≤ MAX_RESOURCES := by omega
  have h1 : (pile (index + 1 - 1)).id = 0 := by
    rw [Nat.add_sub_cancel]; exact h0
  rw [hf, destroy_resource_shift, if_pos hle, if_pos h1]

/-- Removal at an index that holds no active entry of a densely packed pile changes no
slot. -/
theorem destroy_resource_index_empty_slot (s : Registry) (index : Nat) (hd : dense s)
    (hi : index < MAX_RESOURCES) (hge : s.free_index ≤ index) (j : Nat) :
    (destroy_resource_index s index).resource_pile j = s.resource_pile j := by
  show destroy_resource_shift (MAX_RESOURCES - index) (index + 1) s.resource_pile j = _
  rw [destroy_resource_shift_empty s.resource_pile index hi (hd.2.2 index hge hi)]

/-- C16, the claim as stated refuted: on the densely packed pile that holds the single
entry "a", removal at index 1, which is in range and holds no active entry, lowers
`free_index` to 0 while slot 0 keeps its non-zero identifier, so the pile is no longer
densely packed. -/
theorem destroy_resource_index_breaks_dense :
    dense (register_seq String.length empty_pile [("a", blank)]) ∧
    1 < MAX_RESOURCES ∧
    (destroy_resource_index
      (register_seq String.length empty_pile [("a", blank)]) 1).free_index = 0 ∧
    ((destroy_resource_index
      (register_seq String.length empty_pile [("a", blank)]) 1).resource_pile 0).id = 1 ∧
    ¬ dense (destroy_resource_index
      (register_seq String.length empty_pile [("a", blank)]) 1) := by
  refine ⟨?_, by decide, by decide, by decide, ?_⟩
  · exact (register_seq_all_ok String.length [("a", blank)] empty_pile
      (dense_of_empty _ rfl (fun _ _ => rfl)) (by decide) (by decide)
      (fun _ _ k hk => absurd hk (Nat.not_lt_zero k)) (by decide)).2.1
  · intro hd
    have h := hd.2.2 0 (by decide) (by decide)
    revert h
    decide

/-- C16 as amended: on a densely packed pile, removal at an index below `free_index`
leaves the pile densely packed with `free_index` lowered by one; removal at an index
from `free_index` up to `MAX_RESOURCES`, which holds no active entry, changes no slot;
and when `free_index` is 0 the call changes neither `free_index` nor any slot. -/
theorem destroy_resource_index_dense (s : Registry) (index : Nat) (hd : dense s)
    (hi : index < MAX_RESOURCES) :
    (index < s.free_index →
      dense (destroy_resource_index s index) ∧
      (destroy_resource_index s index).free_index + 1 = s.free_index) ∧
    (s.free_index ≤ index →
      ∀ j, (destroy_resource_index s index).resource_pile j = s.resource_pile j) ∧
    (s.free_index = 0 →
      (destroy_resource_index s index).free_index = 0 ∧
      ∀ j, (destroy_resource_index s index).resource_pile j = s.resource_pile j) := by
  refine ⟨fun hk => ⟨dense_destroy_resource_index s index hd hk, ?_⟩,
    fun hge j => destroy_resource_index_empty_slot s index hd hi hge j,
    fun h0 => ⟨?_, fun j => destroy_resource_index_empty_slot s index hd hi (by omega) j⟩⟩
  · rw [destroy_resource_index_free_index s index hk]; omega
  · simp [destroy_resource_index, h0]

/-- Witness of C16 as amended: removal at index 0 of the pile holding "a" and "bb". -/
theorem destroy_resource_index_dense_witness :
    dense (register_seq String.length empty_pile [("a", blank), ("bb", blank)]) ∧
    0 < MAX_RESOURCES ∧
    dense (destroy_resource_index
      (register_seq String.length empty_pile [("a", blank), ("bb", blank)]) 0) ∧
    (destroy_resource_index
      (register_seq String.length empty_pile [("a", blank), ("bb", blank)]) 0).free_index
      = 1 :=
  have hd : dense (register_seq String.length empty_pile [("a", blank), ("bb", blank)]) :=
    (register_seq_all_ok String.length [("a", blank), ("bb", blank)] empty_pile
      (dense_of_empty _ rfl (fun _ _ => rfl)) (by decide) (by decide)
      (fun _ _ k hk => absurd hk (Nat.not_lt_zero k)) (by decide)).2.1
  ⟨hd, by decide,
    ((destroy_resource_index_dense _ 0 hd (by decide)).1 (by decide)).1, by decide⟩

/-- After the removal of an active entry at `k`, the slot `j` below the new
`free_index` holds what slot `j` held when `j < k` and what slot `j + 1` held
otherwise. -/
theorem destroy_resource_index_active_slot (s : Registry) (k : Nat) (hd : dense s)
    (hk : k < s.free_index) (j : Nat) (hj : j < s.free_index - 1) :
    (destroy_resource_index s k).resource_pile j =
      s.resource_pile (if k ≤ j then j + 1 else j) := by
  rw [destroy_resource_index_slot s k hd hk j]
  have hle := hd.1
  by_cases hkj : k ≤ j
  · have h1 : k ≤ j ∧ j < s.free_index := by omega
    have h2 : j + 1 < MAX_RESOURCES := by omega
    rw [if_pos h1, if_pos h2, if_pos hkj]
  · have h1 : ¬ (k ≤ j ∧ j < s.free_index) := by omega
    rw [if_neg h1, if_neg hkj]

theorem unique_ids_register (ch : String → HashID) (s : Registry) (id : String)
    (r : ResourceHandle) (e : Option ErrorType) (hd : dense s) (hu : unique_ids s) :
    unique_ids (register_resource ch s id r e).state := by
  cases hok : (register_resource ch s id r e).ok with
  | false => rw [register_resource_state_of_not_ok ch s id r e hok]; exact hu
  | true =>
    obtain ⟨hnf, _⟩ := (register_resource_ok_iff ch s id r e).mp hok
    have hnot : ¬ ∃ k, k < s.free_index ∧ (s.resource_pile k).id = ch id := by
      rw [← dense_found_iff ch s id none none hd, hnf]; simp
    rw [register_resource_state_of_ok ch s id r e hok]
    intro i j hi hj hij
    simp only at hi hj
    change (store s.resource_pile s.free_index _ i).id =
      (store s.resource_pile s.free_index _ j).id at hij
    by_cases hif : i = s.free_index
    · by_cases hjf : j = s.free_index
      · omega
      · rw [hif, store_same, store_other _ _ _ _ hjf] at hij
        exact absurd hij.symm (fun h => hnot ⟨j, by omega, h⟩)
    · by_cases hjf : j = s.free_index
      · rw [hjf, store_same, store_other _ _ _ _ hif] at hij
        exact absurd hij (fun h => hnot ⟨i, by omega, h⟩)
      · rw [store_other _ _ _ _ hif, store_other _ _ _ _ hjf] at hij
        exact hu i j (by omega) (by omega) hij

theorem unique_ids_destroy_resource_index (s : Registry) (k : Nat) (hd : dense s)
    (hu : unique_ids s) (hk : k < s.free_index) :
    unique_ids (destroy_resource_index s k) := by
  intro i j hi hj hij
  rw [destroy_resource_index_free_index s k hk] at hi hj
  rw [destroy_resource_index_active_slot s k hd hk i hi,
    destroy_resource_index_active_slot s k hd hk j hj] at hij
  have h := hu _ _ (by split <;> omega) (by split <;> omega) hij
  split at h <;> split at h <;> omega

theorem unique_ids_destroy_resource (ch : String → HashID) (s : Registry) (id : String)
    (hd : dense s) (hu : unique_ids s) : unique_ids (destroy_resource ch s id).2 := by
  cases hscan : get_resource_scan s.resource_pile (ch id) MAX_RESOURCES 0 with
  | none => rw [destroy_resource_of_not_found ch s id hscan]; exact hu
  | some k =>
    rw [destroy_resource_of_found ch s id k hscan]
    obtain ⟨h1, _, h3, _⟩ := (scan_full_some_iff _ _ k).mp hscan
    apply unique_ids_destroy_resource_index s k hd hu
    by_contra hge
    exact h3 k (le_refl k) (hd.2.2 k (by omega) h1)

theorem unique_ids_run (ch : String → HashID) (calls : List Call) :
    ∀ s, dense s → unique_ids s → (∀ c, c ∈ calls → ch c.id ≠ 0) →
      unique_ids (run ch s calls) := by
  induction calls with
  | nil => intro s _ hu _; exact hu
  | cons c rest ih =>
    intro s hd hu hne
    have hc := hne c (List.mem_cons_self c rest)
    have hu1 : unique_ids (step ch s c) := by
      cases c with
      | register id r => exact unique_ids_register ch s id r none hd hu
      | destroy id => exact unique_ids_destroy_resource ch s id hd hu
    exact ih (step ch s c) (dense_step ch s c hd hc) hu1
      (fun c2 hc2 => hne c2 (List.mem_cons_of_mem c hc2))

/-- C17 (unique identifiers): starting from an empty pile, after every call of any
finite sequence of registrations and destructions by name whose names hash to non-zero
identifiers, no two different slots below `free_index` carry the same identifier. The
state after the first `n` calls is `run ch s0 (calls.take n)`. -/
theorem unique_ids_after_every_call (ch : String → HashID) (s0 : Registry)
    (h0 : s0.free_index = 0)
    (hz : ∀ i, i < MAX_RESOURCES → (s0.resource_pile i).id = 0)
    (calls : List Call) (hne : ∀ c, c ∈ calls → ch c.id ≠ 0) (n : Nat) :
    ∀ i j, i < (run ch s0 (calls.take n)).free_index →
      j < (run ch s0 (calls.take n)).free_index →
      ((run ch s0 (calls.take n)).resource_pile i).id =
        ((run ch s0 (calls.take n)).resource_pile j).id → i = j :=
  unique_ids_run ch (calls.take n) s0 (dense_of_empty s0 h0 hz)
    (fun i _ hi => by omega)
    (fun c hc => hne c (List.mem_of_mem_take hc))

/-- Witness of C17: "a", "bb" and, a second time, "a" registered from program start,
then "a" destroyed; after all four calls the one active entry is "bb". -/
theorem unique_ids_after_every_call_witness :
    (∀ c, c ∈ [Call.register "a" blank, Call.register "bb" blank,
        Call.register "a" blank, Call.destroy "a"] → String.length c.id ≠ 0) ∧
    (run String.length empty_pile
      ([Call.register "a" blank, Call.register "bb" blank, Call.register "a" blank,
        Call.destroy "a"].take 4)).free_index = 1 ∧
    unique_ids (run String.length empty_pile
      ([Call.register "a" blank, Call.register "bb" blank, Call.register "a" blank,
        Call.destroy "a"].take 4)) :=
  ⟨by decide, by decide,
    unique_ids_after_every_call String.length empty_pile rfl (fun _ _ => rfl)
      [Call.register "a" blank, Call.register "bb" blank, Call.register "a" blank,
        Call.destroy "a"] (by decide) 4⟩

/-- C18 (destruction really removes): on a densely packed pile whose active
identifiers are pairwise distinct, if `destroy_resource` under a name returns `true`
then on the resulting state `get_resource` under that name returns `false` and a
`register_resource` under that name returns `true`, whatever the handle. -/
theorem destroy_then_register (ch : String → HashID) (s : Registry) (id : String)
    (H : ResourceHandle) (e : Option ErrorType) (out : Option ResourceHandle)
    (index : Option Nat) (hd : dense s) (hu : unique_ids s)
    (hdes : (destroy_resource ch s id).1 = true) :
    (get_resource ch (destroy_resource ch s id).2 id out index).found = false ∧
    (register_resource ch (destroy_resource ch s id).2 id H e).ok = true := by
  cases hscan : get_resource_scan s.resource_pile (ch id) MAX_RESOURCES 0 with
  | none =>
    rw [destroy_resource_of_not_found ch s id hscan] at hdes
    cases hdes
  | some k =>
    rw [destroy_resource_of_found ch s id k hscan]
    obtain ⟨h1, h2, h3, _⟩ := (scan_full_some_iff _ _ k).mp hscan
    have hk : k < s.free_index := by
      by_contra hge
      exact h3 k (le_refl k) (hd.2.2 k (by omega) h1)
    have hd2 := dense_destroy_resource_index s k hd hk
    have hfi := destroy_resource_index_free_index s k hk
    have hle := hd.1
    have hnf : ∀ o ix, (get_resource ch (destroy_resource_index s k) id o ix).found
        = false := by
      intro o ix
      cases hf : (get_resource ch (destroy_resource_index s k) id o ix).found with
      | false => rfl
      | true =>
        obtain ⟨j, hj, hid⟩ := (dense_found_iff ch _ id o ix hd2).mp hf
        rw [hfi] at hj
        rw [destroy_resource_index_active_slot s k hd hk j hj, ← h2] at hid
        have h := hu _ _ (by split <;> omega) hk hid
        split at h <;> omega
    refine ⟨hnf out index, ?_⟩
    exact (register_resource_ok_iff ch _ id H e).mpr ⟨hnf none none, by rw [hfi]; omega⟩

/-- Witness of C18: "a" destroyed on the pile holding "a" and "bb", then looked up and
registered again. -/
theorem destroy_then_register_witness :
    dense (register_seq String.length empty_pile [("a", blank), ("bb", blank)]) ∧
    (destroy_resource String.length
      (register_seq String.length empty_pile [("a", blank), ("bb", blank)]) "a").1
      = true ∧
    (get_resource String.length (destroy_resource String.length
      (register_seq String.length empty_pile [("a", blank), ("bb", blank)]) "a").2
      "a" none none).found = false ∧
    (register_resource String.length (destroy_resource String.length
      (register_seq String.length empty_pile [("a", blank), ("bb", blank)]) "a").2
      "a" blank none).ok = true :=
  have hd : dense (register_seq String.length empty_pile [("a", blank), ("bb", blank)]) :=
    (register_seq_all_ok String.length [("a", blank), ("bb", blank)] empty_pile
      (dense_of_empty _ rfl (fun _ _ => rfl)) (by decide) (by decide)
      (fun _ _ k hk => absurd hk (Nat.not_lt_zero k)) (by decide)).2.1
  have hu : unique_ids
      (register_seq String.length empty_pile [("a", blank), ("bb", blank)]) := by
    intro i j hi hj
    have hi2 : i < 2 := hi
    have hj2 : j < 2 := hj
    interval_cases i <;> interval_cases j <;> decide
  ⟨hd, by decide,
    destroy_then_register String.length _ "a" blank none none none hd hu (by decide)⟩

end resource
